import Mathlib

/-
Verification of the crawl4ai-cloud Python SDK core
(HTTP transport retry/error mapping, job polling loops, config
sanitization, URL normalization) against a shallow Lean embedding.

Conventions used throughout:
- Python dicts are modelled as association lists with unique keys
  (List (String × v)); dict.pop removes the key, dict.copy is the
  identity on the pure value.
- Python floats (timeouts, wall-clock readings) are modelled as ℚ;
  the code only compares and subtracts them, so no rounding behavior
  is relevant to the claims.
- Python strings are modelled as String, or as List Char where
  character-level operations (strip, lower, find) must be reasoned
  about.
- Network interaction is modelled by oracles: a function from the
  index of the i-th request attempt (or poll) to the outcome the
  server produced for it, and a function from the index of the i-th
  time.time() call to the clock value it returned.
- Loops that can run forever (polling with no timeout) take a fuel
  parameter; exhausting fuel yields a distinguished outcome meaning
  the loop was still running.
-/

/- ===================================================================
   Section 1: HTTPClient.request  (src/python/crawl4ai_cloud/_client.py)
   =================================================================== -/

/-- Outcome of one attempt of `client.request(...)` inside the retry
loop: an HTTP response with a status code and parsed error detail,
an httpx.TimeoutException, or an httpx.RequestError. -/
inductive Attempt
  | resp (status : Nat) (detail : List Char)
  | timeoutExc
  | netExc
deriving DecidableEq

/-- The typed exception taxonomy of errors.py, with the status_code
argument each raise site passes (None where the raise passes no
status, as in the httpx exception handlers). -/
inductive SdkError
  | authenticationError (statusCode : Nat)
  | notFoundError (statusCode : Nat)
  | rateLimitError (statusCode : Nat)
  | quotaExceededError (statusCode : Nat)
  | validationError (statusCode : Nat)
  | timeoutError (statusCode : Option Nat)
  | serverError (statusCode : Nat)
  | cloudError (statusCode : Option Nat)
deriving DecidableEq

/-- CloudError.status_code attribute: the status code the exception
carries (None when the raise site passed none). -/
def SdkError.statusCode : SdkError → Option Nat
  | .authenticationError n => some n
  | .notFoundError n => some n
  | .rateLimitError n => some n
  | .quotaExceededError n => some n
  | .validationError n => some n
  | .timeoutError o => o
  | .serverError n => some n
  | .cloudError o => o

/-- Result of HTTPClient.request: parsed JSON on success (body not
modelled), or a raised SdkError. -/
inductive ReqResult
  | ok
  | err (e : SdkError)
deriving DecidableEq

/-- Observable trace of one HTTPClient.request call: the final result,
the list of sleep durations (seconds) in order, and how many HTTP
attempts were issued. -/
structure ReqTrace where
  result : ReqResult
  sleeps : List Nat
  attempts : Nat
deriving DecidableEq

/-- Python substring test: needle in hay. -/
def hasSub (needle : List Char) : List Char → Bool
  | [] => needle.isEmpty
  | c :: rest => needle.isPrefixOf (c :: rest) || hasSub needle rest

/-- Python: "rate limit" in detail.lower() -/
def rateLimitDetail (d : List Char) : Bool :=
  hasSub "rate limit".toList (d.map Char.toLower)

/-- The body of the for-loop of HTTPClient.request (lines 114-178 of
_client.py), as a recursion over the remaining loop iterations.
fuel = maxRetries - attempt is maintained by the top-level wrapper;
running out of fuel is falling off the end of
for attempt in range(max_retries), which raises
CloudError("Max retries exceeded") with no status code. -/
def requestGo (outcomes : Nat → Attempt) (maxRetries : Nat) :
    Nat → Nat → ReqTrace
  | 0, _ => ⟨.err (.cloudError none), [], 0⟩
  | fuel + 1, attempt =>
    match outcomes attempt with
    | .resp s d =>
      if s < 400 then ⟨.ok, [], 1⟩
      else if s = 401 then ⟨.err (.authenticationError 401), [], 1⟩
      else if s = 404 then ⟨.err (.notFoundError 404), [], 1⟩
      else if s = 429 then
        if rateLimitDetail d then ⟨.err (.rateLimitError 429), [], 1⟩
        else ⟨.err (.quotaExceededError 429), [], 1⟩
      else if s = 400 then ⟨.err (.validationError 400), [], 1⟩
      else if s = 504 then ⟨.err (.timeoutError (some 504)), [], 1⟩
      else if 500 ≤ s then
        if attempt < maxRetries - 1 then
          let t := requestGo outcomes maxRetries fuel (attempt + 1)
          ⟨t.result, 2 ^ attempt :: t.sleeps, t.attempts + 1⟩
        else ⟨.err (.serverError s), [], 1⟩
      else ⟨.err (.cloudError (some s)), [], 1⟩
    | .timeoutExc =>
      if attempt < maxRetries - 1 then
        let t := requestGo outcomes maxRetries fuel (attempt + 1)
        ⟨t.result, 2 ^ attempt :: t.sleeps, t.attempts + 1⟩
      else ⟨.err (.timeoutError none), [], 1⟩
    | .netExc =>
      if attempt < maxRetries - 1 then
        let t := requestGo outcomes maxRetries fuel (attempt + 1)
        ⟨t.result, 2 ^ attempt :: t.sleeps, t.attempts + 1⟩
      else ⟨.err (.cloudError none), [], 1⟩

/-- HTTPClient.request, given the oracle of per-attempt outcomes and
the configured max_retries (self._max_retries, default 3). -/
def request (outcomes : Nat → Attempt) (maxRetries : Nat) : ReqTrace :=
  requestGo outcomes maxRetries maxRetries 0

/-- The failures HTTPClient.request actually retries: HTTP responses
with status ≥ 500 other than 504 (504 is mapped to TimeoutError
before the retry branch is reached), httpx timeouts, and httpx
network errors. -/
def Attempt.isTransient : Attempt → Bool
  | .resp s _ => decide (500 ≤ s) && decide (s ≠ 504)
  | .timeoutExc => true
  | .netExc => true

/-- The error raised when the final attempt sees a given transient
failure. -/
def finalError : Attempt → SdkError
  | .resp s _ => .serverError s
  | .timeoutExc => .timeoutError none
  | .netExc => .cloudError none

/-- The status-to-exception mapping of _client.py lines 140-164, in
the order the code tests the cases. -/
def statusToError (s : Nat) (d : List Char) : SdkError :=
  if s = 401 then .authenticationError 401
  else if s = 404 then .notFoundError 404
  else if s = 429 then
    if rateLimitDetail d then .rateLimitError 429 else .quotaExceededError 429
  else if s = 400 then .validationError 400
  else if s = 504 then .timeoutError (some 504)
  else if 500 ≤ s then .serverError s
  else .cloudError (some s)

/- Helper lemmas about requestGo. -/

theorem requestGo_attempts_le (outcomes : Nat → Attempt) (mr : Nat) :
    ∀ fuel attempt, (requestGo outcomes mr fuel attempt).attempts ≤ fuel := by
  intro fuel
  induction fuel with
  | zero => intro attempt; simp [requestGo]
  | succ n ih =>
    intro attempt
    cases hout : outcomes attempt with
    | resp s d =>
      simp only [requestGo, hout]
      split
      · simp
      · split
        · simp
        · split
          · simp
          · split
            · split <;> simp
            · split
              · simp
              · split
                · simp
                · split
                  · split
                    · exact Nat.succ_le_succ (ih (attempt + 1))
                    · simp
                  · simp
    | timeoutExc =>
      simp only [requestGo, hout]
      split
      · exact Nat.succ_le_succ (ih (attempt + 1))
      · simp
    | netExc =>
      simp only [requestGo, hout]
      split
      · exact Nat.succ_le_succ (ih (attempt + 1))
      · simp

theorem requestGo_transient (outcomes : Nat → Attempt) (mr : Nat) :
    ∀ fuel attempt, attempt + fuel = mr → attempt < mr →
    (∀ i, attempt ≤ i → i < mr → (outcomes i).isTransient = true) →
    requestGo outcomes mr fuel attempt =
      ⟨.err (finalError (outcomes (mr - 1))),
       (List.range' attempt (mr - 1 - attempt)).map (fun i => 2 ^ i),
       mr - attempt⟩ := by
  intro fuel
  induction fuel with
  | zero => intro attempt h hlt _; omega
  | succ n ih =>
    intro attempt h hlt htrans
    have htr := htrans attempt le_rfl hlt
    by_cases hlast : attempt < mr - 1
    · -- not the last attempt: retry branch taken
      have hrec := ih (attempt + 1) (by omega) (by omega)
        (fun i hi hi2 => htrans i (by omega) hi2)
      have hrange : mr - 1 - attempt = (mr - 1 - (attempt + 1)) + 1 := by omega
      cases hout : outcomes attempt with
      | resp s d =>
        have hb : (decide (500 ≤ s) && decide (s ≠ 504)) = true := by
          have := htr; rwa [hout, Attempt.isTransient] at this
        have h500 : 500 ≤ s :=
          of_decide_eq_true ((Bool.and_eq_true _ _).mp hb).1
        have h504 : s ≠ 504 :=
          of_decide_eq_true ((Bool.and_eq_true _ _).mp hb).2
        simp only [requestGo, hout]
        rw [if_neg (by omega), if_neg (by omega), if_neg (by omega),
            if_neg (by omega), if_neg (by omega), if_neg h504,
            if_pos h500, if_pos hlast, hrec]
        simp only [hrange, List.range'_succ, List.map_cons, ReqTrace.mk.injEq]
        exact ⟨trivial, trivial, by omega⟩
      | timeoutExc =>
        simp only [requestGo, hout]
        rw [if_pos hlast, hrec]
        simp only [hrange, List.range'_succ, List.map_cons, ReqTrace.mk.injEq]
        exact ⟨trivial, trivial, by omega⟩
      | netExc =>
        simp only [requestGo, hout]
        rw [if_pos hlast, hrec]
        simp only [hrange, List.range'_succ, List.map_cons, ReqTrace.mk.injEq]
        exact ⟨trivial, trivial, by omega⟩
    · -- the last attempt: attempt = mr - 1, the typed error is raised
      have hattempt : attempt = mr - 1 := by omega
      have hz : mr - 1 - attempt = 0 := by omega
      have hone : mr - attempt = 1 := by omega
      cases hout : outcomes attempt with
      | resp s d =>
        have hb : (decide (500 ≤ s) && decide (s ≠ 504)) = true := by
          have := htr; rwa [hout, Attempt.isTransient] at this
        have h500 : 500 ≤ s :=
          of_decide_eq_true ((Bool.and_eq_true _ _).mp hb).1
        have h504 : s ≠ 504 :=
          of_decide_eq_true ((Bool.and_eq_true _ _).mp hb).2
        simp only [requestGo, hout]
        rw [if_neg (by omega), if_neg (by omega), if_neg (by omega),
            if_neg (by omega), if_neg (by omega), if_neg h504,
            if_pos h500, if_neg hlast]
        rw [hz, hone, ← hattempt, hout]
        simp [finalError]
      | timeoutExc =>
        simp only [requestGo, hout]
        rw [if_neg hlast, hz, hone, ← hattempt, hout]
        simp [finalError]
      | netExc =>
        simp only [requestGo, hout]
        rw [if_neg hlast, hz, hone, ← hattempt, hout]
        simp [finalError]

/-- Claim C1, counterexample: HTTP 504 has status ≥ 500, yet the
client raises TimeoutError immediately on the first attempt, with no
backoff sleep and no retry (the claim predicts a sleep of 2^0 after
attempt 0 and max_retries = 3 attempts in total). -/
theorem c1_504_not_retried :
    500 ≤ 504 ∧
    request (fun _ => Attempt.resp 504 []) 3 =
      ⟨.err (.timeoutError (some 504)), [], 1⟩ ∧
    (request (fun _ => Attempt.resp 504 []) 3).attempts = 1 ∧
    (request (fun _ => Attempt.resp 504 []) 3).sleeps = [] := by
  refine ⟨by norm_num, by decide, by decide, by decide⟩

/-- Claim C1 (amended): the failures HTTPClient.request treats as
transient are HTTP responses with status ≥ 500 other than 504 (a
504 raises TimeoutError immediately), httpx timeouts, and httpx
network errors. On a run of transient failures the client sleeps
2^attempt seconds after the 0-indexed attempt for every non-final
attempt, makes exactly max_retries attempts, and raises the typed
error (ServerError, TimeoutError, or CloudError) determined by the
final attempt only after that final attempt fails; in every case at
most max_retries attempts are made. -/
theorem c1_retry_backoff (outcomes : Nat → Attempt) (mr : Nat) :
    (1 ≤ mr → (∀ i, i < mr → (outcomes i).isTransient = true) →
      request outcomes mr =
        ⟨.err (finalError (outcomes (mr - 1))),
         (List.range (mr - 1)).map (fun i => 2 ^ i), mr⟩) ∧
    (request outcomes mr).attempts ≤ mr := by
  constructor
  · intro h1 htrans
    have := requestGo_transient outcomes mr mr 0 (by omega) (by omega)
      (fun i _ hi => htrans i hi)
    rw [request, this, List.range_eq_range']
    simp
  · exact requestGo_attempts_le outcomes mr mr 0

/-- Witness for c1_retry_backoff at a concrete transient run. -/
theorem c1_retry_backoff_witness :
    request (fun _ => Attempt.timeoutExc) 3 =
      ⟨.err (.timeoutError none), [1, 2], 3⟩ ∧
    (request (fun _ => Attempt.timeoutExc) 3).attempts ≤ 3 := by
  have h := c1_retry_backoff (fun _ => Attempt.timeoutExc) 3
  refine ⟨?_, h.2⟩
  have := h.1 (by norm_num) (fun i _ => rfl)
  simpa using this

/-- Claim C2: for every HTTP response status ≥ 400 that is not
retried into success, request raises the typed exception determined
by the status code (401 AuthenticationError, 404 NotFoundError,
400 ValidationError, 504 TimeoutError, 429 RateLimitError exactly
when the detail contains "rate limit" case-insensitively and
QuotaExceededError otherwise, other ≥ 500 ServerError after retries
are exhausted, anything else CloudError), and the raised exception
carries the status code of the response. -/
theorem c2_error_mapping (mr : Nat) (hmr : 1 ≤ mr) (s : Nat) (d : List Char)
    (h400 : 400 ≤ s) :
    (request (fun _ => Attempt.resp s d) mr).result = .err (statusToError s d) ∧
    (statusToError s d).statusCode = some s := by
  have hmain :
      (request (fun _ => Attempt.resp s d) mr).result = .err (statusToError s d) := by
    by_cases h5 : 500 ≤ s ∧ s ≠ 504
    · -- retried server errors: after retries are exhausted, ServerError
      have := requestGo_transient (fun _ => Attempt.resp s d) mr mr 0
        (by omega) (by omega)
        (fun i _ _ => by
          simp [Attempt.isTransient, h5.1, h5.2])
      rw [request, this]
      simp only [finalError, statusToError]
      rw [if_neg (by omega), if_neg (by omega), if_neg (by omega),
          if_neg (by omega), if_neg h5.2, if_pos h5.1]
    · -- immediately raised errors
      obtain ⟨fuel, rfl⟩ : ∃ k, mr = k + 1 := ⟨mr - 1, by omega⟩
      rw [request, requestGo]
      simp only
      rw [if_neg (by omega)]
      by_cases h401 : s = 401
      · rw [if_pos h401, statusToError, if_pos h401]
      rw [if_neg h401, statusToError, if_neg h401]
      by_cases h404 : s = 404
      · rw [if_pos h404, if_pos h404]
      rw [if_neg h404, if_neg h404]
      by_cases h429 : s = 429
      · rw [if_pos h429, if_pos h429]
        by_cases hrl : rateLimitDetail d
        · rw [if_pos hrl, if_pos hrl]
        · rw [if_neg hrl, if_neg hrl]
      rw [if_neg h429, if_neg h429]
      by_cases hb : s = 400
      · rw [if_pos hb, if_pos hb]
      rw [if_neg hb, if_neg hb]
      by_cases h504 : s = 504
      · rw [if_pos h504, if_pos h504]
      rw [if_neg h504, if_neg h504]
      have hlt : ¬ 500 ≤ s := by
        intro hc; exact h5 ⟨hc, h504⟩
      rw [if_neg hlt, if_neg hlt]
  refine ⟨hmain, ?_⟩
  simp only [statusToError]
  by_cases h401 : s = 401
  · rw [if_pos h401, h401]; rfl
  rw [if_neg h401]
  by_cases h404 : s = 404
  · rw [if_pos h404, h404]; rfl
  rw [if_neg h404]
  by_cases h429 : s = 429
  · rw [if_pos h429, h429]
    by_cases hrl : rateLimitDetail d
    · rw [if_pos hrl]; rfl
    · rw [if_neg hrl]; rfl
  rw [if_neg h429]
  by_cases hb : s = 400
  · rw [if_pos hb, hb]; rfl
  rw [if_neg hb]
  by_cases h504 : s = 504
  · rw [if_pos h504, h504]; rfl
  rw [if_neg h504]
  by_cases h5 : 500 ≤ s
  · rw [if_pos h5]; rfl
  · rw [if_neg h5]; rfl

/-- Witness for c2_error_mapping at a concrete 429 quota response. -/
theorem c2_error_mapping_witness :
    (request (fun _ => Attempt.resp 429 "Daily quota exceeded".toList) 3).result =
      .err (.quotaExceededError 429) ∧
    (SdkError.quotaExceededError 429).statusCode = some 429 := by
  have h := c2_error_mapping 3 (by norm_num) 429 "Daily quota exceeded".toList
    (by norm_num)
  have hs : statusToError 429 "Daily quota exceeded".toList =
      .quotaExceededError 429 := by decide
  exact ⟨by rw [h.1, hs], by rw [← hs]; exact h.2⟩

/- ===================================================================
   Section 2: job polling
   (src/python/crawl4ai_cloud/crawler.py wait_job, _wait_scan_job;
    src/python/crawl4ai_cloud/models.py CrawlJob, DeepCrawlResult)
   =================================================================== -/

/-- CrawlJob (models.py), restricted to the fields the polling claims
mention. -/
structure CrawlJobM where
  job_id : String
  status : String
  progressTotal : Nat
  progressCompleted : Nat
  progressFailed : Nat
  urls_count : Nat
  created_at : String
deriving DecidableEq

/-- CrawlJob.is_complete: status in
("completed", "partial", "failed", "cancelled"). -/
def CrawlJobM.is_complete (j : CrawlJobM) : Bool :=
  j.status == "completed" || j.status == "partial" ||
  j.status == "failed" || j.status == "cancelled"

/-- DeepCrawlResult (models.py), restricted to the fields the polling
claims mention. -/
structure DeepCrawlResultM where
  job_id : String
  status : String
  discovered_count : Nat
  crawl_job_id : Option String
  created_at : String
deriving DecidableEq

/-- DeepCrawlResult.is_complete: status in ("completed", "failed"). -/
def DeepCrawlResultM.is_complete (r : DeepCrawlResultM) : Bool :=
  r.status == "completed" || r.status == "failed"

/-- Oracles for the network and the wall clock: the response to the
i-th GET on the crawl jobs endpoint, the response to the i-th GET on
the deep-crawl jobs endpoint, and the value of the i-th time.time()
call. -/
structure WaitEnv where
  crawlPoll : Nat → CrawlJobM
  deepPoll : Nat → DeepCrawlResultM
  now : Nat → ℚ

/-- Counters for how many GETs of each kind and how many time.time()
calls have happened so far. -/
structure SdkState where
  crawlIdx : Nat
  deepIdx : Nat
  tick : Nat
deriving DecidableEq

/-- Observable side effects of the polling code, in order: a GET of a
crawl job status, a GET of a deep-crawl job status, an
asyncio.sleep. -/
inductive Ev
  | getJob (i : Nat)
  | getDeep (i : Nat)
  | sleep (secs : ℚ)
deriving DecidableEq

/-- Result of a polling call: a normal return, a raised TimeoutError,
or fuel exhaustion (the loop was still running). -/
inductive Outcome (α : Type)
  | returned (a : α)
  | timedOut
  | fuelOut
deriving DecidableEq

/-- Python truthiness of the timeout argument: None and 0.0 are
falsy. -/
def timeoutTruthy : Option ℚ → Bool
  | none => false
  | some t => t != 0

/-- The while-loop of wait_job (crawler.py lines 366-378): GET the
job; return it if terminal; raise TimeoutError if a truthy timeout is
exceeded (the time.time() call happens only when the timeout is
truthy, matching the and short-circuit); otherwise sleep
poll_interval and loop. -/
def crawlWaitLoop (env : WaitEnv) (pollInterval : ℚ) (timeout : Option ℚ)
    (startTime : ℚ) : Nat → SdkState → Outcome CrawlJobM × SdkState × List Ev
  | 0, st => (.fuelOut, st, [])
  | fuel + 1, st =>
    let job := env.crawlPoll st.crawlIdx
    let st1 : SdkState := { st with crawlIdx := st.crawlIdx + 1 }
    if job.is_complete then (.returned job, st1, [.getJob st.crawlIdx])
    else
      match timeout with
      | some t =>
        if t ≠ 0 then
          let nowv := env.now st1.tick
          let st2 : SdkState := { st1 with tick := st1.tick + 1 }
          if nowv - startTime > t then (.timedOut, st2, [.getJob st.crawlIdx])
          else
            let r := crawlWaitLoop env pollInterval timeout startTime fuel st2
            (r.1, r.2.1, .getJob st.crawlIdx :: .sleep pollInterval :: r.2.2)
        else
          let r := crawlWaitLoop env pollInterval timeout startTime fuel st1
          (r.1, r.2.1, .getJob st.crawlIdx :: .sleep pollInterval :: r.2.2)
      | none =>
        let r := crawlWaitLoop env pollInterval timeout startTime fuel st1
        (r.1, r.2.1, .getJob st.crawlIdx :: .sleep pollInterval :: r.2.2)

/-- The while-loop of _wait_scan_job (crawler.py lines 646-659), same
shape as crawlWaitLoop but polling the deep-crawl endpoint and using
DeepCrawlResult.is_complete. -/
def scanWaitLoop (env : WaitEnv) (pollInterval : ℚ) (timeout : Option ℚ)
    (startTime : ℚ) : Nat → SdkState → Outcome DeepCrawlResultM × SdkState × List Ev
  | 0, st => (.fuelOut, st, [])
  | fuel + 1, st =>
    let res := env.deepPoll st.deepIdx
    let st1 : SdkState := { st with deepIdx := st.deepIdx + 1 }
    if res.is_complete then (.returned res, st1, [.getDeep st.deepIdx])
    else
      match timeout with
      | some t =>
        if t ≠ 0 then
          let nowv := env.now st1.tick
          let st2 : SdkState := { st1 with tick := st1.tick + 1 }
          if nowv - startTime > t then (.timedOut, st2, [.getDeep st.deepIdx])
          else
            let r := scanWaitLoop env pollInterval timeout startTime fuel st2
            (r.1, r.2.1, .getDeep st.deepIdx :: .sleep pollInterval :: r.2.2)
        else
          let r := scanWaitLoop env pollInterval timeout startTime fuel st1
          (r.1, r.2.1, .getDeep st.deepIdx :: .sleep pollInterval :: r.2.2)
      | none =>
        let r := scanWaitLoop env pollInterval timeout startTime fuel st1
        (r.1, r.2.1, .getDeep st.deepIdx :: .sleep pollInterval :: r.2.2)

/-- _wait_scan_job: records its own start_time = time.time() on entry
and runs the polling loop. -/
def scanWaitJob (env : WaitEnv) (pollInterval : ℚ) (timeout : Option ℚ)
    (fuel : Nat) (st : SdkState) :
    Outcome DeepCrawlResultM × SdkState × List Ev :=
  let startTime := env.now st.tick
  scanWaitLoop env pollInterval timeout startTime fuel
    { st with tick := st.tick + 1 }

/-- crawler.py lines 340-343: remaining_timeout = None, then
if timeout: remaining_timeout = max(0, timeout - elapsed).
Python truthiness: timeout values None and 0 leave None. -/
def remainingTimeout (timeout : Option ℚ) (elapsed : ℚ) : Option ℚ :=
  match timeout with
  | some t => if t ≠ 0 then some (max 0 (t - elapsed)) else none
  | none => none

/-- crawler.py lines 352-363: the CrawlJob synthesized from a
scan-only result (status and discovered_count copied from the
scan). -/
def synthJob (jobId : String) (r : DeepCrawlResultM) : CrawlJobM :=
  { job_id := jobId
    status := r.status
    progressTotal := r.discovered_count
    progressCompleted := r.discovered_count
    progressFailed := 0
    urls_count := r.discovered_count
    created_at := r.created_at }

/-- Python: job_id.startswith("scan_"), computed over the character
lists of the strings. -/
def startsWithScan (jobId : String) : Bool :=
  "scan_".toList.isPrefixOf jobId.toList

/-- AsyncWebCrawler.wait_job (crawler.py lines 299-378). The first Nat
is recursion fuel for the scan-to-crawl chaining (the chained id can
itself start with scan_); the second is loop fuel for each polling
loop. The returned list is the event log. The source test
if scan_result.crawl_job_id: is Python truthiness over an optional
string: None and the empty string are both falsy and take the
scan-only branch. -/
def waitJob (env : WaitEnv) (pollInterval : ℚ) :
    Nat → String → Option ℚ → Nat → SdkState →
    Outcome CrawlJobM × SdkState × List Ev
  | 0, _, _, _, st => (.fuelOut, st, [])
  | fuelRec + 1, jobId, timeout, fuelLoop, st =>
    let startTime := env.now st.tick
    let st0 : SdkState := { st with tick := st.tick + 1 }
    if startsWithScan jobId then
      match scanWaitJob env pollInterval timeout fuelLoop st0 with
      | (.returned r, st1, evs) =>
        match r.crawl_job_id with
        | some cid =>
          if cid = "" then (.returned (synthJob jobId r), st1, evs)
          else
            match timeout with
            | some t =>
              if t ≠ 0 then
                let nowv := env.now st1.tick
                let st2 : SdkState := { st1 with tick := st1.tick + 1 }
                let rec2 := waitJob env pollInterval fuelRec cid
                  (remainingTimeout timeout (nowv - startTime)) fuelLoop st2
                (rec2.1, rec2.2.1, evs ++ rec2.2.2)
              else
                let rec2 := waitJob env pollInterval fuelRec cid
                  (remainingTimeout timeout 0) fuelLoop st1
                (rec2.1, rec2.2.1, evs ++ rec2.2.2)
            | none =>
              let rec2 := waitJob env pollInterval fuelRec cid
                (remainingTimeout timeout 0) fuelLoop st1
              (rec2.1, rec2.2.1, evs ++ rec2.2.2)
        | none => (.returned (synthJob jobId r), st1, evs)
      | (.timedOut, st1, evs) => (.timedOut, st1, evs)
      | (.fuelOut, st1, evs) => (.fuelOut, st1, evs)
    else
      crawlWaitLoop env pollInterval timeout startTime fuelLoop st0

/- Helper lemmas: a polling loop only returns jobs in a terminal
state. -/

theorem CrawlJobM.complete_status_iff (j : CrawlJobM) :
    j.is_complete = true ↔
      (j.status = "completed" ∨ j.status = "partial" ∨
       j.status = "failed" ∨ j.status = "cancelled") := by
  simp [CrawlJobM.is_complete, Bool.or_eq_true, beq_iff_eq, or_assoc]

theorem DeepCrawlResultM.deep_complete_status_iff (r : DeepCrawlResultM) :
    r.is_complete = true ↔
      (r.status = "completed" ∨ r.status = "failed") := by
  simp [DeepCrawlResultM.is_complete, Bool.or_eq_true, beq_iff_eq]

theorem crawlWaitLoop_returned_complete (env : WaitEnv) (pI : ℚ)
    (timeout : Option ℚ) (startTime : ℚ) :
    ∀ fuel st j,
      (crawlWaitLoop env pI timeout startTime fuel st).1 = .returned j →
      j.is_complete = true := by
  intro fuel
  induction fuel with
  | zero => intro st j h; simp [crawlWaitLoop] at h
  | succ n ih =>
    intro st j h
    simp only [crawlWaitLoop] at h
    by_cases hc : (env.crawlPoll st.crawlIdx).is_complete = true
    · rw [if_pos hc] at h
      simp only at h
      cases h
      exact hc
    · rw [if_neg hc] at h
      cases timeout with
      | none =>
        simp only at h
        exact ih _ _ h
      | some t =>
        simp only at h
        by_cases ht : t ≠ 0
        · rw [if_pos ht] at h
          by_cases hcmp : env.now st.tick - startTime > t
          · rw [if_pos hcmp] at h
            simp at h
          · rw [if_neg hcmp] at h
            simp only at h
            exact ih _ _ h
        · rw [if_neg ht] at h
          simp only at h
          exact ih _ _ h

theorem scanWaitLoop_returned_spec (env : WaitEnv) (pI : ℚ)
    (timeout : Option ℚ) (startTime : ℚ) :
    ∀ fuel st r,
      (scanWaitLoop env pI timeout startTime fuel st).1 = .returned r →
      ∃ k, st.deepIdx ≤ k ∧ r = env.deepPoll k ∧ r.is_complete = true ∧
        (∀ m, st.deepIdx ≤ m → m < k → (env.deepPoll m).is_complete = false) := by
  intro fuel
  induction fuel with
  | zero => intro st r h; simp [scanWaitLoop] at h
  | succ n ih =>
    intro st r h
    simp only [scanWaitLoop] at h
    by_cases hc : (env.deepPoll st.deepIdx).is_complete = true
    · rw [if_pos hc] at h
      simp only at h
      cases h
      exact ⟨st.deepIdx, le_rfl, rfl, hc, fun m h1 h2 => absurd h1 (by omega)⟩
    · rw [if_neg hc] at h
      have step :
          ∀ st1 : SdkState, st1.deepIdx = st.deepIdx + 1 →
          (scanWaitLoop env pI timeout startTime n st1).1 = .returned r →
          ∃ k, st.deepIdx ≤ k ∧ r = env.deepPoll k ∧ r.is_complete = true ∧
            (∀ m, st.deepIdx ≤ m → m < k →
              (env.deepPoll m).is_complete = false) := by
        intro st1 hidx h1
        obtain ⟨k, hk1, hk2, hk3, hk4⟩ := ih st1 r h1
        refine ⟨k, by omega, hk2, hk3, fun m hm1 hm2 => ?_⟩
        by_cases hm : m = st.deepIdx
        · rw [hm]
          exact Bool.not_eq_true _ ▸ (by simpa using hc)
        · exact hk4 m (by omega) hm2
      cases timeout with
      | none =>
        simp only at h
        exact step _ rfl h
      | some t =>
        simp only at h
        by_cases ht : t ≠ 0
        · rw [if_pos ht] at h
          by_cases hcmp : env.now st.tick - startTime > t
          · rw [if_pos hcmp] at h
            simp at h
          · rw [if_neg hcmp] at h
            simp only at h
            exact step _ rfl h
        · rw [if_neg ht] at h
          simp only at h
          exact step _ rfl h

theorem scanWaitJob_returned_spec (env : WaitEnv) (pI : ℚ)
    (timeout : Option ℚ) (fuel : Nat) (st : SdkState) (r : DeepCrawlResultM)
    (h : (scanWaitJob env pI timeout fuel st).1 = .returned r) :
    ∃ k, st.deepIdx ≤ k ∧ r = env.deepPoll k ∧ r.is_complete = true ∧
      (∀ m, st.deepIdx ≤ m → m < k → (env.deepPoll m).is_complete = false) := by
  exact scanWaitLoop_returned_spec env pI timeout (env.now st.tick) fuel
    { st with tick := st.tick + 1 } r h

theorem waitJob_returned_complete (env : WaitEnv) (pI : ℚ) :
    ∀ fuelRec jobId timeout fuelLoop st j,
      (waitJob env pI fuelRec jobId timeout fuelLoop st).1 = .returned j →
      j.is_complete = true := by
  intro fuelRec
  induction fuelRec with
  | zero => intro jobId timeout fuelLoop st j h; simp [waitJob] at h
  | succ n ih =>
    intro jobId timeout fuelLoop st j h
    simp only [waitJob] at h
    by_cases hs : startsWithScan jobId = true
    · rw [if_pos hs] at h
      rcases hsj : scanWaitJob env pI timeout fuelLoop
        { st with tick := st.tick + 1 } with ⟨o, st1, evs⟩
      rw [hsj] at h
      cases o with
      | returned r =>
        have hr : r.is_complete = true := by
          obtain ⟨k, -, hk2, hk3, -⟩ :=
            scanWaitJob_returned_spec env pI timeout fuelLoop
              { st with tick := st.tick + 1 } r (by rw [hsj])
          exact hk3
        cases hcid : r.crawl_job_id with
        | some cid =>
          simp only [hcid] at h
          by_cases hcE : cid = ""
          · rw [if_pos hcE] at h
            cases h
            rw [CrawlJobM.complete_status_iff]
            have hterm := (DeepCrawlResultM.deep_complete_status_iff r).mp hr
            rcases hterm with h1 | h1
            · exact Or.inl (by simp [synthJob, h1])
            · exact Or.inr (Or.inr (Or.inl (by simp [synthJob, h1])))
          · rw [if_neg hcE] at h
            cases timeout with
            | none =>
              simp only at h
              exact ih _ _ _ _ _ h
            | some t =>
              simp only at h
              by_cases ht : t ≠ 0
              · rw [if_pos ht] at h
                simp only at h
                exact ih _ _ _ _ _ h
              · rw [if_neg ht] at h
                simp only at h
                exact ih _ _ _ _ _ h
        | none =>
          simp only [hcid] at h
          cases h
          rw [CrawlJobM.complete_status_iff]
          have := (DeepCrawlResultM.deep_complete_status_iff r).mp hr
          rcases this with h1 | h1
          · exact Or.inl (by simp [synthJob, h1])
          · exact Or.inr (Or.inr (Or.inl (by simp [synthJob, h1])))
      | timedOut => simp at h
      | fuelOut => simp at h
    · rw [if_neg hs] at h
      exact crawlWaitLoop_returned_complete env pI timeout
        (env.now st.tick) fuelLoop _ j h

/-- The timeout test of the polling loops as a single predicate:
truthy timeout and elapsed time strictly greater than it. -/
def checkExpired (timeout : Option ℚ) (startTime nowv : ℚ) : Bool :=
  match timeout with
  | some t => decide (t ≠ 0) && decide (nowv - startTime > t)
  | none => false

/-- State after a continue step of the crawl polling loop: one more
GET, and one more clock read when the timeout is truthy. -/
def crawlNextState (timeout : Option ℚ) (st : SdkState) : SdkState :=
  if timeoutTruthy timeout then
    { st with crawlIdx := st.crawlIdx + 1, tick := st.tick + 1 }
  else { st with crawlIdx := st.crawlIdx + 1 }

/-- Claim C3, counterexample: a poll that returns a non-terminal
status does not always lead to a sleep and another GET; when the
(nonzero finite) timeout is already exceeded the loop raises
TimeoutError at that poll instead, with no sleep and no further
GET. -/
theorem c3_counterexample :
    (CrawlJobM.is_complete ⟨"job_1", "pending", 0, 0, 0, 0, ""⟩) = false ∧
    crawlWaitLoop
      ⟨fun _ => ⟨"job_1", "pending", 0, 0, 0, 0, ""⟩,
       fun _ => ⟨"scan_1", "completed", 0, none, ""⟩,
       fun _ => 100⟩ 2 (some 1) 0 (4 + 1) ⟨0, 0, 0⟩ =
      (.timedOut, ⟨1, 0, 1⟩, [.getJob 0]) := by
  refine ⟨by decide, ?_⟩
  simp only [crawlWaitLoop]
  rw [if_neg (by decide :
        ¬ (CrawlJobM.is_complete ⟨"job_1", "pending", 0, 0, 0, 0, ""⟩) = true),
      if_pos (by norm_num : ((1 : ℚ) ≠ 0)),
      if_pos (by norm_num : ((100 : ℚ) - 0 > 1))]

/-- Claim C3 (amended): wait_job never returns a job in a
non-terminal state: whenever it returns normally the status of the
returned CrawlJob is one of completed, partial, failed, cancelled.
For every polled status outside this set the loop never returns at
that poll: it sleeps poll_interval and issues another GET, except
that when a truthy (nonzero finite) timeout is already exceeded it
raises TimeoutError instead. -/
theorem c3_wait_job_terminal (env : WaitEnv) (pI : ℚ) :
    (∀ fuelRec jobId timeout fuelLoop st j,
        (waitJob env pI fuelRec jobId timeout fuelLoop st).1 = .returned j →
        j.status = "completed" ∨ j.status = "partial" ∨
        j.status = "failed" ∨ j.status = "cancelled") ∧
    (∀ timeout startTime fuel (st : SdkState),
        (env.crawlPoll st.crawlIdx).is_complete = false →
        (checkExpired timeout startTime (env.now st.tick) = false →
          crawlWaitLoop env pI timeout startTime (fuel + 1) st =
            ((crawlWaitLoop env pI timeout startTime fuel
                (crawlNextState timeout st)).1,
             (crawlWaitLoop env pI timeout startTime fuel
                (crawlNextState timeout st)).2.1,
             .getJob st.crawlIdx :: .sleep pI ::
               (crawlWaitLoop env pI timeout startTime fuel
                  (crawlNextState timeout st)).2.2)) ∧
        (checkExpired timeout startTime (env.now st.tick) = true →
          crawlWaitLoop env pI timeout startTime (fuel + 1) st =
            (.timedOut,
             { st with crawlIdx := st.crawlIdx + 1, tick := st.tick + 1 },
             [.getJob st.crawlIdx]))) := by
  constructor
  · intro fuelRec jobId timeout fuelLoop st j h
    have := waitJob_returned_complete env pI fuelRec jobId timeout fuelLoop st j h
    exact (CrawlJobM.complete_status_iff j).mp this
  · intro timeout startTime fuel st hc
    have hcond : ¬ (env.crawlPoll st.crawlIdx).is_complete = true := by simp [hc]
    constructor
    · intro hexp
      cases timeout with
      | none =>
        simp only [crawlWaitLoop]
        rw [if_neg hcond]
        simp only [crawlNextState, timeoutTruthy]
        rfl
      | some t =>
        by_cases ht : t ≠ 0
        · have hcmp : ¬ env.now st.tick - startTime > t := by
            intro hgt
            simp only [checkExpired] at hexp
            rw [decide_eq_true ht, decide_eq_true hgt] at hexp
            simp at hexp
          simp only [crawlWaitLoop]
          rw [if_neg hcond, if_pos ht, if_neg hcmp]
          have hnext : crawlNextState (some t) st =
              { st with crawlIdx := st.crawlIdx + 1, tick := st.tick + 1 } := by
            simp [crawlNextState, timeoutTruthy, ht]
          rw [hnext]
        · simp only [crawlWaitLoop]
          rw [if_neg hcond, if_neg ht]
          have hnext : crawlNextState (some t) st =
              { st with crawlIdx := st.crawlIdx + 1 } := by
            push_neg at ht
            simp [crawlNextState, timeoutTruthy, ht]
          rw [hnext]
    · intro hexp
      cases timeout with
      | none => simp [checkExpired] at hexp
      | some t =>
        simp only [checkExpired, Bool.and_eq_true, decide_eq_true_eq] at hexp
        simp only [crawlWaitLoop]
        rw [if_neg hcond, if_pos hexp.1, if_pos hexp.2]

/-- Witness for c3_wait_job_terminal: a job polled as completed is
returned and is terminal; a pending poll with no timeout leads to a
sleep and another GET. -/
theorem c3_wait_job_terminal_witness :
    (("completed" : String) = "completed" ∨ ("completed" : String) = "partial" ∨
     ("completed" : String) = "failed" ∨ ("completed" : String) = "cancelled") ∧
    crawlWaitLoop
      ⟨fun _ => ⟨"job_1", "pending", 0, 0, 0, 0, ""⟩,
       fun _ => ⟨"scan_1", "completed", 0, none, ""⟩,
       fun _ => 0⟩ 2 none 0 (0 + 1) ⟨0, 0, 0⟩ =
      ((crawlWaitLoop
          ⟨fun _ => ⟨"job_1", "pending", 0, 0, 0, 0, ""⟩,
           fun _ => ⟨"scan_1", "completed", 0, none, ""⟩,
           fun _ => 0⟩ 2 none 0 0 (crawlNextState none ⟨0, 0, 0⟩)).1,
       (crawlWaitLoop
          ⟨fun _ => ⟨"job_1", "pending", 0, 0, 0, 0, ""⟩,
           fun _ => ⟨"scan_1", "completed", 0, none, ""⟩,
           fun _ => 0⟩ 2 none 0 0 (crawlNextState none ⟨0, 0, 0⟩)).2.1,
       .getJob 0 :: .sleep 2 ::
         (crawlWaitLoop
            ⟨fun _ => ⟨"job_1", "pending", 0, 0, 0, 0, ""⟩,
             fun _ => ⟨"scan_1", "completed", 0, none, ""⟩,
             fun _ => 0⟩ 2 none 0 0 (crawlNextState none ⟨0, 0, 0⟩)).2.2) := by
  constructor
  · exact (c3_wait_job_terminal
      ⟨fun _ => ⟨"job_2", "completed", 1, 1, 0, 1, ""⟩,
       fun _ => ⟨"scan_1", "completed", 0, none, ""⟩,
       fun _ => 0⟩ 2).1 1 "job_2" none 1 ⟨0, 0, 0⟩
      ⟨"job_2", "completed", 1, 1, 0, 1, ""⟩ (by decide)
  · exact ((c3_wait_job_terminal
      ⟨fun _ => ⟨"job_1", "pending", 0, 0, 0, 0, ""⟩,
       fun _ => ⟨"scan_1", "completed", 0, none, ""⟩,
       fun _ => 0⟩ 2).2 none 0 0 ⟨0, 0, 0⟩ (by decide)).1 rfl

/-- Claim C4, counterexample: with the finite timeout value 0 the
loop never raises TimeoutError even after more than 0 seconds have
elapsed with a non-terminal status: timeout=0 is Python-falsy, so
the loop keeps polling (here it sleeps and re-polls until fuel runs
out instead of raising). -/
theorem c4_zero_timeout_counterexample :
    (CrawlJobM.is_complete ⟨"job_1", "pending", 0, 0, 0, 0, ""⟩) = false ∧
    ((7 : ℚ) - 0 > 0) ∧
    crawlWaitLoop
      ⟨fun _ => ⟨"job_1", "pending", 0, 0, 0, 0, ""⟩,
       fun _ => ⟨"scan_1", "completed", 0, none, ""⟩,
       fun _ => 7⟩ 2 (some 0) 0 (0 + 1) ⟨0, 0, 0⟩ =
      (.fuelOut, ⟨1, 0, 0⟩, [.getJob 0, .sleep 2]) := by
  have heval : crawlWaitLoop
      ⟨fun _ => ⟨"job_1", "pending", 0, 0, 0, 0, ""⟩,
       fun _ => ⟨"scan_1", "completed", 0, none, ""⟩,
       fun _ => 7⟩ 2 (some 0) 0 (0 + 1) ⟨0, 0, 0⟩ =
      (.fuelOut, ⟨1, 0, 0⟩, [.getJob 0, .sleep 2]) := by
    simp only [crawlWaitLoop]
    rw [if_neg (by decide :
          ¬ (CrawlJobM.is_complete ⟨"job_1", "pending", 0, 0, 0, 0, ""⟩) = true),
        if_neg (by norm_num : ¬ ((0 : ℚ) ≠ 0))]
  exact ⟨by decide, by norm_num, heval⟩

/-- Claim C4 (amended): for every nonzero finite timeout T, when a
poll sees a non-terminal status and more than T seconds have elapsed
since the call started, both wait_job and _wait_scan_job raise
TimeoutError rather than returning; with timeout=None the loops poll
indefinitely and never raise TimeoutError, and the finite value 0 is
Python-falsy so it behaves exactly like None (the loop never raises
TimeoutError). -/
theorem c4_timeout_semantics :
    (∀ (env : WaitEnv) (pI t startTime : ℚ) (fuel : Nat) (st : SdkState),
        t ≠ 0 → (env.crawlPoll st.crawlIdx).is_complete = false →
        env.now st.tick - startTime > t →
        crawlWaitLoop env pI (some t) startTime (fuel + 1) st =
          (.timedOut,
           { st with crawlIdx := st.crawlIdx + 1, tick := st.tick + 1 },
           [.getJob st.crawlIdx])) ∧
    (∀ (env : WaitEnv) (pI startTime : ℚ) (fuel : Nat) (st : SdkState),
        (crawlWaitLoop env pI none startTime fuel st).1 ≠ .timedOut) ∧
    (∀ (env : WaitEnv) (pI startTime : ℚ) (fuel : Nat) (st : SdkState),
        (crawlWaitLoop env pI (some 0) startTime fuel st).1 ≠ .timedOut) ∧
    (∀ (env : WaitEnv) (pI startTime : ℚ) (fuel : Nat) (st : SdkState),
        (∀ i, (env.crawlPoll i).is_complete = false) →
        (crawlWaitLoop env pI none startTime fuel st).1 = .fuelOut) ∧
    (∀ (env : WaitEnv) (pI t startTime : ℚ) (fuel : Nat) (st : SdkState),
        t ≠ 0 → (env.deepPoll st.deepIdx).is_complete = false →
        env.now st.tick - startTime > t →
        scanWaitLoop env pI (some t) startTime (fuel + 1) st =
          (.timedOut,
           { st with deepIdx := st.deepIdx + 1, tick := st.tick + 1 },
           [.getDeep st.deepIdx])) ∧
    (∀ (env : WaitEnv) (pI startTime : ℚ) (fuel : Nat) (st : SdkState),
        (scanWaitLoop env pI none startTime fuel st).1 ≠ .timedOut) ∧
    (∀ (env : WaitEnv) (pI startTime : ℚ) (fuel : Nat) (st : SdkState),
        (scanWaitLoop env pI (some 0) startTime fuel st).1 ≠ .timedOut) := by
  refine ⟨?_, ?_, ?_, ?_, ?_, ?_, ?_⟩
  · intro env pI t startTime fuel st ht hc hgt
    simp only [crawlWaitLoop]
    rw [if_neg (by simp [hc]), if_pos ht, if_pos hgt]
  · intro env pI startTime fuel
    induction fuel with
    | zero => intro st; simp [crawlWaitLoop]
    | succ n ih =>
      intro st
      simp only [crawlWaitLoop]
      by_cases hc : (env.crawlPoll st.crawlIdx).is_complete = true
      · rw [if_pos hc]; simp
      · rw [if_neg hc]
        exact ih _
  · intro env pI startTime fuel
    induction fuel with
    | zero => intro st; simp [crawlWaitLoop]
    | succ n ih =>
      intro st
      simp only [crawlWaitLoop]
      by_cases hc : (env.crawlPoll st.crawlIdx).is_complete = true
      · rw [if_pos hc]; simp
      · rw [if_neg hc, if_neg (by norm_num)]
        exact ih _
  · intro env pI startTime fuel
    induction fuel with
    | zero => intro st hall; simp [crawlWaitLoop]
    | succ n ih =>
      intro st hall
      simp only [crawlWaitLoop]
      rw [if_neg (by simp [hall st.crawlIdx])]
      exact ih _ hall
  · intro env pI t startTime fuel st ht hc hgt
    simp only [scanWaitLoop]
    rw [if_neg (by simp [hc]), if_pos ht, if_pos hgt]
  · intro env pI startTime fuel
    induction fuel with
    | zero => intro st; simp [scanWaitLoop]
    | succ n ih =>
      intro st
      simp only [scanWaitLoop]
      by_cases hc : (env.deepPoll st.deepIdx).is_complete = true
      · rw [if_pos hc]; simp
      · rw [if_neg hc]
        exact ih _
  · intro env pI startTime fuel
    induction fuel with
    | zero => intro st; simp [scanWaitLoop]
    | succ n ih =>
      intro st
      simp only [scanWaitLoop]
      by_cases hc : (env.deepPoll st.deepIdx).is_complete = true
      · rw [if_pos hc]; simp
      · rw [if_neg hc, if_neg (by norm_num)]
        exact ih _

/-- Witness for c4_timeout_semantics: a nonzero exceeded timeout
raises TimeoutError at a concrete pending poll. -/
theorem c4_timeout_semantics_witness :
    crawlWaitLoop
      ⟨fun _ => ⟨"job_1", "pending", 0, 0, 0, 0, ""⟩,
       fun _ => ⟨"scan_1", "completed", 0, none, ""⟩,
       fun _ => 9⟩ 2 (some 1) 0 (0 + 1) ⟨0, 0, 0⟩ =
      (.timedOut, ⟨1, 0, 1⟩, [.getJob 0]) := by
  exact c4_timeout_semantics.1
    ⟨fun _ => ⟨"job_1", "pending", 0, 0, 0, 0, ""⟩,
     fun _ => ⟨"scan_1", "completed", 0, none, ""⟩,
     fun _ => 9⟩ 2 1 0 0 ⟨0, 0, 0⟩ (by norm_num) (by decide)
    (by show (9 : ℚ) - 0 > 1; norm_num)

/-- Claim C5, counterexample: when the scan chains into a crawl job
under the finite timeout value 0, the code passes None as the
remaining budget (timeout=0 is Python-falsy and skips the
if timeout: block), not max(0, timeout - elapsed), which here is
some 0. -/
theorem c5_zero_budget_counterexample :
    remainingTimeout (some 0) 5 = none ∧
    max (0 : ℚ) (0 - 5) = 0 := by
  constructor
  · simp [remainingTimeout]
  · norm_num

/-- Claim C5 (amended): for a job_id beginning with scan_, wait_job
first waits on the deep-crawl status endpoint, and the scan result it
proceeds with is the first polled scan status that is terminal; if
that scan reports a truthy crawl_job_id (a nonempty string), wait_job
chains into waiting for that crawl job, passing the remaining budget
max(0, timeout - elapsed) when a nonzero finite timeout was given
(a timeout of None, or the Python-falsy 0, passes None), and returns
that wait's outcome; if no crawl job was created (crawl_job_id is
None or the Python-falsy empty string) it returns a CrawlJob
synthesized from the scan result carrying the scan status and
discovered_count. -/
theorem c5_scan_flow (env : WaitEnv) (pI : ℚ) (fuelRec fuelLoop : Nat)
    (jobId : String) (timeout : Option ℚ) (st : SdkState)
    (hscan : startsWithScan jobId = true)
    (r : DeepCrawlResultM) (st1 : SdkState) (evs : List Ev)
    (hret : scanWaitJob env pI timeout fuelLoop { st with tick := st.tick + 1 } =
      (.returned r, st1, evs)) :
    (∃ k, st.deepIdx ≤ k ∧ r = env.deepPoll k ∧ r.is_complete = true ∧
      (∀ m, st.deepIdx ≤ m → m < k → (env.deepPoll m).is_complete = false)) ∧
    ((r.crawl_job_id = none ∨ r.crawl_job_id = some "") →
      waitJob env pI (fuelRec + 1) jobId timeout fuelLoop st =
        (.returned (synthJob jobId r), st1, evs) ∧
      (synthJob jobId r).status = r.status ∧
      (synthJob jobId r).urls_count = r.discovered_count ∧
      (synthJob jobId r).progressTotal = r.discovered_count ∧
      (synthJob jobId r).progressCompleted = r.discovered_count ∧
      (synthJob jobId r).progressFailed = 0) ∧
    (∀ cid t, r.crawl_job_id = some cid → cid ≠ "" →
      timeout = some t → t ≠ 0 →
      waitJob env pI (fuelRec + 1) jobId timeout fuelLoop st =
        ((waitJob env pI fuelRec cid
            (some (max 0 (t - (env.now st1.tick - env.now st.tick)))) fuelLoop
            { st1 with tick := st1.tick + 1 }).1,
         (waitJob env pI fuelRec cid
            (some (max 0 (t - (env.now st1.tick - env.now st.tick)))) fuelLoop
            { st1 with tick := st1.tick + 1 }).2.1,
         evs ++ (waitJob env pI fuelRec cid
            (some (max 0 (t - (env.now st1.tick - env.now st.tick)))) fuelLoop
            { st1 with tick := st1.tick + 1 }).2.2)) ∧
    (∀ cid, r.crawl_job_id = some cid → cid ≠ "" →
      (timeout = none ∨ timeout = some 0) →
      waitJob env pI (fuelRec + 1) jobId timeout fuelLoop st =
        ((waitJob env pI fuelRec cid none fuelLoop st1).1,
         (waitJob env pI fuelRec cid none fuelLoop st1).2.1,
         evs ++ (waitJob env pI fuelRec cid none fuelLoop st1).2.2)) := by
  refine ⟨?_, ?_, ?_, ?_⟩
  · exact scanWaitJob_returned_spec env pI timeout fuelLoop
      { st with tick := st.tick + 1 } r (by rw [hret])
  · intro hfalsy
    refine ⟨?_, rfl, rfl, rfl, rfl, rfl⟩
    simp only [waitJob]
    rw [if_pos hscan, hret]
    rcases hfalsy with hnone | hempty
    · simp only [hnone]
    · simp only [hempty]
      rw [if_pos (by trivial)]
  · intro cid t hcid hcne ht htne
    subst ht
    simp only [waitJob]
    rw [if_pos hscan, hret]
    simp only [hcid]
    rw [if_neg hcne]
    rw [if_pos htne]
    simp only [remainingTimeout]
    rw [if_pos htne]
  · intro cid hcid hcne htz
    simp only [waitJob]
    rw [if_pos hscan, hret]
    simp only [hcid]
    rw [if_neg hcne]
    rcases htz with rfl | rfl
    · simp only [remainingTimeout]
    · norm_num [remainingTimeout]

/-- Witness for c5_scan_flow: a scan-only job (no chained crawl job)
returns the synthesized CrawlJob carrying the scan status and
discovered count. -/
theorem c5_scan_flow_witness :
    waitJob
      ⟨fun _ => ⟨"job_9", "completed", 1, 1, 0, 1, ""⟩,
       fun _ => ⟨"scan_1", "completed", 3, none, "t0"⟩,
       fun _ => 0⟩ 2 (0 + 1) "scan_1" none (0 + 1) ⟨0, 0, 0⟩ =
      (.returned (synthJob "scan_1" ⟨"scan_1", "completed", 3, none, "t0"⟩),
       ⟨0, 1, 2⟩, [.getDeep 0]) ∧
    (synthJob "scan_1"
      (⟨"scan_1", "completed", 3, none, "t0"⟩ : DeepCrawlResultM)).status =
      "completed" ∧
    (synthJob "scan_1"
      (⟨"scan_1", "completed", 3, none, "t0"⟩ : DeepCrawlResultM)).urls_count =
      3 := by
  have h := (c5_scan_flow
    ⟨fun _ => ⟨"job_9", "completed", 1, 1, 0, 1, ""⟩,
     fun _ => ⟨"scan_1", "completed", 3, none, "t0"⟩,
     fun _ => 0⟩ 2 0 (0 + 1) "scan_1" none ⟨0, 0, 0⟩ (by decide)
    ⟨"scan_1", "completed", 3, none, "t0"⟩ ⟨0, 1, 2⟩ [.getDeep 0] rfl).2.1
    (Or.inl rfl)
  exact ⟨h.1, h.2.1, h.2.2.1⟩

/- ===================================================================
   Section 3: configuration sanitization
   (src/python/crawl4ai_cloud/configs.py lines 141-161 and 343-416)
   =================================================================== -/

/-- Python JSON-like values stored in configuration dicts. -/
inductive PyVal
  | vstr (s : String)
  | vint (n : Int)
  | vbool (b : Bool)
  | vnone
  | vlist (l : List PyVal)
  | vdict (d : List (String × PyVal))

/-- A Python dict as an association list with unique keys. -/
abbrev PyDict := List (String × PyVal)

/-- Python: k in d. -/
def dictContains (k : String) (d : PyDict) : Bool :=
  d.any (fun kv => kv.1 == k)

/-- Python: d.get(k) / d[k]. -/
def dictGet (k : String) (d : PyDict) : Option PyVal :=
  (d.find? (fun kv => kv.1 == k)).map (·.2)

/-- Python: d.pop(k, None), as the resulting dict. -/
def dictPop (k : String) (d : PyDict) : PyDict :=
  d.filter (fun kv => kv.1 != k)

/-- configs.py lines 141-148: fields the cloud controls, removed from
CrawlerRunConfig. -/
def CRAWLER_CONFIG_SANITIZE_FIELDS : List String :=
  ["cache_mode", "session_id", "bypass_cache", "no_cache_read",
   "no_cache_write", "disable_cache"]

/-- configs.py lines 151-161: fields the cloud controls, removed from
BrowserConfig. -/
def BROWSER_CONFIG_SANITIZE_FIELDS : List String :=
  ["cdp_url", "create_isolated_context", "cdp_cleanup_on_close",
   "browser_context_id", "target_id", "use_managed_browser",
   "browser_mode", "user_data_dir", "chrome_channel"]

/-- configs.py lines 413-416, _flatten_serialized_objects: the body
returns the data as-is (the source comment says the cloud API
understands the serialized format). -/
def flattenSerializedObjects (d : PyDict) : PyDict := d

/-- A configuration argument: None, an object with a dump() method
whose dump() returns the given dict (the CrawlerRunConfig and
BrowserConfig dataclasses are such objects and their dump() never
produces a params key), a plain dict, or anything else. -/
inductive ConfigInput
  | noneInput
  | withDump (d : PyDict)
  | plainDict (d : PyDict)
  | other

/-- The params unwrap of sanitize_crawler_config lines 354-357: if the
dumped dict has a params key the code replaces data by
data.get("params", \x7b\x7d); if that value is not a dict every later
data.pop raises AttributeError, modelled as an error. -/
def getParamsUnwrap (d : PyDict) : Except String PyDict :=
  if dictContains "params" d then
    match dictGet "params" d with
    | some (.vdict inner) => .ok inner
    | some _ => .error "AttributeError"
    | none => .ok d
  else .ok d

/-- The pop loop: for fld in FIELDS: data.pop(fld, None). -/
def popFields (ks : List String) (d : PyDict) : PyDict :=
  ks.foldl (fun acc k => dictPop k acc) d

/-- configs.py lines 343-370, sanitize_crawler_config. -/
def sanitize_crawler_config : ConfigInput → Except String PyDict
  | .noneInput => .ok []
  | .withDump d =>
    (getParamsUnwrap d).map (fun data =>
      flattenSerializedObjects (popFields CRAWLER_CONFIG_SANITIZE_FIELDS data))
  | .plainDict d =>
    .ok (flattenSerializedObjects (popFields CRAWLER_CONFIG_SANITIZE_FIELDS d))
  | .other => .ok []

/-- Python truthiness of the config argument. -/
def configTruthy : ConfigInput → Bool
  | .noneInput => false
  | .withDump _ => true
  | .plainDict d => !d.isEmpty
  | .other => true

/-- configs.py lines 373-410, sanitize_browser_config: None yields an
empty dict; a truthy config with strategy http warns and yields an
empty dict; otherwise dump or copy, strip the browser fields,
flatten. -/
def sanitize_browser_config (config : ConfigInput) (strategy : String) :
    Except String PyDict :=
  match config with
  | .noneInput => .ok []
  | .withDump d =>
    if strategy == "http" && configTruthy (.withDump d) then .ok []
    else
      (getParamsUnwrap d).map (fun data =>
        flattenSerializedObjects (popFields BROWSER_CONFIG_SANITIZE_FIELDS data))
  | .plainDict d =>
    if strategy == "http" && configTruthy (.plainDict d) then .ok []
    else
      .ok (flattenSerializedObjects (popFields BROWSER_CONFIG_SANITIZE_FIELDS d))
  | .other =>
    if strategy == "http" && configTruthy .other then .ok []
    else .ok []

/- Characterization of the pop loop as a single filter. -/

theorem popFields_eq_filter (ks : List String) :
    ∀ d : PyDict, popFields ks d = d.filter (fun kv => !(ks.contains kv.1)) := by
  induction ks with
  | nil =>
    intro d
    simp [popFields]
  | cons k ks ih =>
    intro d
    have h1 : popFields (k :: ks) d = popFields ks (dictPop k d) := by
      simp [popFields]
    rw [h1, ih, dictPop, List.filter_filter]
    congr 1
    funext kv
    by_cases h1 : kv.1 = k <;> by_cases h2 : kv.1 ∈ ks <;>
      simp [List.contains_cons, h1, h2, bne]

theorem dictContains_filter_stripped (ks : List String) (k : String)
    (hk : k ∈ ks) (d : PyDict) :
    dictContains k (d.filter (fun kv => !(ks.contains kv.1))) = false := by
  rw [dictContains, Bool.eq_false_iff]
  intro hany
  obtain ⟨kv, hmem, hbeq⟩ := List.any_eq_true.mp hany
  have hfilter : (!(ks.contains kv.1)) = true := (List.mem_filter.mp hmem).2
  have heq : kv.1 = k := by simpa using hbeq
  rw [heq] at hfilter
  have hnot : ¬ k ∈ ks := by simpa using hfilter
  exact hnot hk

theorem dictGet_filter (k : String) (p : String × PyVal → Bool)
    (hp : ∀ kv : String × PyVal, kv.1 = k → p kv = true) :
    ∀ d : PyDict, dictGet k (d.filter p) = dictGet k d := by
  intro d
  induction d with
  | nil => rfl
  | cons kv rest ih =>
    by_cases hk : kv.1 = k
    · rw [List.filter_cons_of_pos (hp kv hk)]
      unfold dictGet
      rw [List.find?_cons_of_pos _ (by simpa using hk),
          List.find?_cons_of_pos _ (by simpa using hk)]
    · cases hpv : p kv with
      | false =>
        rw [List.filter_cons_of_neg (by simp [hpv])]
        unfold dictGet at ih ⊢
        rw [List.find?_cons_of_neg _ (by simpa using hk)]
        exact ih
      | true =>
        rw [List.filter_cons_of_pos hpv]
        unfold dictGet at ih ⊢
        rw [List.find?_cons_of_neg _ (by simpa using hk),
            List.find?_cons_of_neg _ (by simpa using hk)]
        exact ih

/-- Claim C6: whatever configuration input is given (None, a dataclass
instance exposing dump(), a plain dict, or anything else), a
successful sanitize_crawler_config result contains none of the
crawler strip-list keys, and a successful sanitize_browser_config
result contains none of the browser strip-list keys. -/
theorem c6_sanitize_strips (cfgC cfgB : ConfigInput) (strategy : String)
    (outC outB : PyDict)
    (hC : sanitize_crawler_config cfgC = .ok outC)
    (hB : sanitize_browser_config cfgB strategy = .ok outB) :
    (∀ k ∈ CRAWLER_CONFIG_SANITIZE_FIELDS, dictContains k outC = false) ∧
    (∀ k ∈ BROWSER_CONFIG_SANITIZE_FIELDS, dictContains k outB = false) := by
  constructor
  · intro k hk
    cases cfgC with
    | noneInput => cases hC; rfl
    | withDump d =>
      cases hu : getParamsUnwrap d with
      | error e =>
        rw [sanitize_crawler_config, hu] at hC
        simp [Except.map] at hC
      | ok data =>
        rw [sanitize_crawler_config, hu] at hC
        simp only [Except.map, Except.ok.injEq] at hC
        subst hC
        have h2 := dictContains_filter_stripped CRAWLER_CONFIG_SANITIZE_FIELDS
          k hk data
        rw [← popFields_eq_filter] at h2
        exact h2
    | plainDict d =>
      rw [sanitize_crawler_config] at hC
      simp only [Except.ok.injEq] at hC
      subst hC
      have h2 := dictContains_filter_stripped CRAWLER_CONFIG_SANITIZE_FIELDS
        k hk d
      rw [← popFields_eq_filter] at h2
      exact h2
    | other => cases hC; rfl
  · intro k hk
    cases cfgB with
    | noneInput => cases hB; rfl
    | withDump d =>
      rw [sanitize_browser_config] at hB
      by_cases hif : (strategy == "http" && configTruthy (.withDump d)) = true
      · rw [if_pos hif] at hB
        cases hB
        rfl
      · rw [if_neg hif] at hB
        cases hu : getParamsUnwrap d with
        | error e =>
          rw [hu] at hB
          simp [Except.map] at hB
        | ok data =>
          rw [hu] at hB
          simp only [Except.map, Except.ok.injEq] at hB
          subst hB
          have h2 := dictContains_filter_stripped BROWSER_CONFIG_SANITIZE_FIELDS
            k hk data
          rw [← popFields_eq_filter] at h2
          exact h2
    | plainDict d =>
      rw [sanitize_browser_config] at hB
      by_cases hif : (strategy == "http" && configTruthy (.plainDict d)) = true
      · rw [if_pos hif] at hB
        cases hB
        rfl
      · rw [if_neg hif] at hB
        simp only [Except.ok.injEq] at hB
        subst hB
        have h2 := dictContains_filter_stripped BROWSER_CONFIG_SANITIZE_FIELDS
          k hk d
        rw [← popFields_eq_filter] at h2
        exact h2
    | other =>
      rw [sanitize_browser_config] at hB
      by_cases hif : (strategy == "http" && configTruthy .other) = true
      · rw [if_pos hif] at hB
        cases hB
        rfl
      · rw [if_neg hif] at hB
        cases hB
        rfl

/-- Witness for c6_sanitize_strips at concrete dict inputs. -/
theorem c6_sanitize_strips_witness :
    dictContains "cache_mode" [("css_selector", PyVal.vstr "article")] = false ∧
    dictContains "cdp_url" [("headless", PyVal.vbool true)] = false := by
  have h := c6_sanitize_strips
    (.plainDict [("cache_mode", .vstr "bypass"),
                 ("css_selector", .vstr "article")])
    (.plainDict [("cdp_url", .vstr "ws"), ("headless", .vbool true)])
    "browser"
    [("css_selector", PyVal.vstr "article")] [("headless", PyVal.vbool true)]
    rfl rfl
  exact ⟨h.1 "cache_mode" (by simp [CRAWLER_CONFIG_SANITIZE_FIELDS]),
         h.2 "cdp_url" (by simp [BROWSER_CONFIG_SANITIZE_FIELDS])⟩

/-- Claim C7, counterexample: a serialized nested object of shape
(type, params) passes through sanitization verbatim: nothing replaces
the nested structure with a flattened form, because
_flatten_serialized_objects returns its argument unchanged. -/
theorem c7_no_flatten_counterexample :
    sanitize_crawler_config (.plainDict
      [("extraction_strategy",
        .vdict [("type", .vstr "JsonCssExtractionStrategy"),
                ("params", .vdict [("schema", .vstr "s")])])]) =
      .ok [("extraction_strategy",
            .vdict [("type", .vstr "JsonCssExtractionStrategy"),
                    ("params", .vdict [("schema", .vstr "s")])])] ∧
    dictGet "extraction_strategy"
      [("extraction_strategy",
        .vdict [("type", .vstr "JsonCssExtractionStrategy"),
                ("params", .vdict [("schema", .vstr "s")])])] =
      some (.vdict [("type", .vstr "JsonCssExtractionStrategy"),
                    ("params", .vdict [("schema", .vstr "s")])]) := by
  exact ⟨rfl, rfl⟩

/-- Claim C7 (amended): _flatten_serialized_objects is an identity
pass-through (the cloud API understands the serialized format), so
sanitization sends every nested (type, params) value to the API
unchanged: the sanitized dict is exactly the input dict minus the
stripped keys, with every remaining value untouched. -/
theorem c7_flatten_identity (d : PyDict) :
    flattenSerializedObjects d = d ∧
    sanitize_crawler_config (.plainDict d) =
      .ok (d.filter (fun kv => !(CRAWLER_CONFIG_SANITIZE_FIELDS.contains kv.1))) := by
  refine ⟨rfl, ?_⟩
  rw [sanitize_crawler_config]
  rw [popFields_eq_filter]
  rfl

/- ===================================================================
   Heap-level view of the sanitizers for the frame claim: the Python
   functions copy the caller dict (data = config.copy()) and pop keys
   only on the copy, so the dict object the caller passed is unchanged
   after the call. Addresses are indices into a list of dict cells.
   =================================================================== -/

/-- sanitize_crawler_config on a plain dict, at the heap level:
read the dict at addr, allocate a fresh copy, pop the strip-list
fields in place on the copy, return the new address. -/
def heapSanitizeCrawlerDict (heap : List PyDict) (addr : Nat) :
    List PyDict × Nat :=
  let config := heap.getD addr []
  let heap1 := heap ++ [config]
  let newAddr := heap.length
  (heap1.set newAddr
    (flattenSerializedObjects (popFields CRAWLER_CONFIG_SANITIZE_FIELDS config)),
   newAddr)

/-- sanitize_browser_config on a plain dict, at the heap level: a
truthy dict with strategy http allocates a fresh empty dict;
otherwise copy, pop the browser strip-list fields on the copy,
return the new address. -/
def heapSanitizeBrowserDict (heap : List PyDict) (addr : Nat)
    (strategy : String) : List PyDict × Nat :=
  let config := heap.getD addr []
  if strategy == "http" && !config.isEmpty then
    (heap ++ [[]], heap.length)
  else
    let heap1 := heap ++ [config]
    let newAddr := heap.length
    (heap1.set newAddr
      (flattenSerializedObjects (popFields BROWSER_CONFIG_SANITIZE_FIELDS config)),
     newAddr)

/-- Claim C10: for plain-dict inputs, sanitize_crawler_config and
sanitize_browser_config (with a strategy other than http) map every
key outside their strip lists to exactly the value of the input, and
neither mutates the caller: at the heap level they work on a fresh
copy, so the cell the caller passed holds the same dict after the
call and the returned address is a different cell. -/
theorem c10_sanitize_frame (d : PyDict) (strategy : String)
    (hs : strategy ≠ "http") :
    (∀ outC, sanitize_crawler_config (.plainDict d) = .ok outC →
      ∀ k, ¬ k ∈ CRAWLER_CONFIG_SANITIZE_FIELDS →
        dictGet k outC = dictGet k d) ∧
    (∀ outB, sanitize_browser_config (.plainDict d) strategy = .ok outB →
      ∀ k, ¬ k ∈ BROWSER_CONFIG_SANITIZE_FIELDS →
        dictGet k outB = dictGet k d) ∧
    (∀ heap addr, addr < heap.length →
      ((heapSanitizeCrawlerDict heap addr).1.getD addr [] = heap.getD addr [] ∧
       (heapSanitizeCrawlerDict heap addr).2 ≠ addr)) ∧
    (∀ heap addr, addr < heap.length →
      ((heapSanitizeBrowserDict heap addr strategy).1.getD addr [] =
         heap.getD addr [] ∧
       (heapSanitizeBrowserDict heap addr strategy).2 ≠ addr)) := by
  have hkeep : ∀ (ks : List String) (k : String), ¬ k ∈ ks →
      ∀ dd : PyDict,
      dictGet k (dd.filter (fun kv => !(ks.contains kv.1))) = dictGet k dd := by
    intro ks k hk dd
    refine dictGet_filter k _ (fun kv hkv => ?_) dd
    rw [hkv]
    simp only [Bool.not_eq_true']
    rw [Bool.eq_false_iff]
    intro hcon
    exact hk (by simpa using hcon)
  have hsb : (strategy == "http") = false := by
    rw [beq_eq_false_iff_ne]
    exact hs
  refine ⟨?_, ?_, ?_, ?_⟩
  · intro outC hC k hk
    rw [sanitize_crawler_config] at hC
    simp only [Except.ok.injEq] at hC
    subst hC
    have h2 := hkeep CRAWLER_CONFIG_SANITIZE_FIELDS k hk d
    rw [← popFields_eq_filter] at h2
    exact h2
  · intro outB hB k hk
    rw [sanitize_browser_config, hsb] at hB
    simp only [Bool.false_and, if_neg (by simp : ¬ false = true),
      Except.ok.injEq] at hB
    subst hB
    have h2 := hkeep BROWSER_CONFIG_SANITIZE_FIELDS k hk d
    rw [← popFields_eq_filter] at h2
    exact h2
  · intro heap addr haddr
    constructor
    · rw [heapSanitizeCrawlerDict]
      simp only
      rw [List.getD_eq_getElem?_getD, List.getElem?_set_ne (by omega),
        List.getElem?_append, if_pos haddr, ← List.getD_eq_getElem?_getD]
    · rw [heapSanitizeCrawlerDict]
      simp only
      omega
  · intro heap addr haddr
    constructor
    · rw [heapSanitizeBrowserDict, hsb]
      simp only [Bool.false_and, if_neg (by simp : ¬ false = true)]
      rw [List.getD_eq_getElem?_getD, List.getElem?_set_ne (by omega),
        List.getElem?_append, if_pos haddr, ← List.getD_eq_getElem?_getD]
    · rw [heapSanitizeBrowserDict, hsb]
      simp only [Bool.false_and, if_neg (by simp : ¬ false = true)]
      omega

/-- Witness for c10_sanitize_frame at a concrete dict and heap. -/
theorem c10_sanitize_frame_witness :
    dictGet "css_selector"
      [("css_selector", PyVal.vstr "article")] =
      dictGet "css_selector"
        [("cache_mode", PyVal.vstr "bypass"),
         ("css_selector", PyVal.vstr "article")] ∧
    (heapSanitizeCrawlerDict
      [[("cache_mode", PyVal.vstr "bypass"),
        ("css_selector", PyVal.vstr "article")]] 0).1.getD 0 [] =
      [("cache_mode", PyVal.vstr "bypass"),
       ("css_selector", PyVal.vstr "article")] := by
  have h := c10_sanitize_frame
    [("cache_mode", PyVal.vstr "bypass"),
     ("css_selector", PyVal.vstr "article")] "browser" (by decide)
  constructor
  · exact h.1 [("css_selector", PyVal.vstr "article")] rfl "css_selector"
      (by simp [CRAWLER_CONFIG_SANITIZE_FIELDS])
  · exact (h.2.2.1
      [[("cache_mode", PyVal.vstr "bypass"),
        ("css_selector", PyVal.vstr "article")]] 0 (by simp)).1

/- ===================================================================
   Section 4: URL normalization
   (src/python/crawl4ai_cloud/configs.py lines 19-133 normalize_url
    and lines 484-501 of build_crawl_request, over the CPython
    urllib.parse urlparse/urlunparse pair).
   Strings are modelled as List Char. Modelling notes:
   - str.strip() and the WHATWG lstrip are modelled over the ASCII
     whitespace and C0-control ranges; exotic Unicode whitespace is
     out of scope of the claims.
   - str.lower() is Char.toLower per character (identical on ASCII).
   - urlsplit raises for bracket-unbalanced netlocs (modelled); the
     _check_bracketed_host validation of the inside of a bracketed
     IPv6 literal and the non-ASCII _checknetloc NFKC check are not
     modelled: they only raise on additional exotic inputs, and no
     claim here asserts that such inputs succeed.
   - error messages are modelled as short tags; the Python messages
     interpolate the offending scheme into the text.
   =================================================================== -/

instance {α β : Type} [DecidableEq α] [DecidableEq β] : DecidableEq (Except α β)
  | .error a, .error b =>
    if h : a = b then .isTrue (by rw [h]) else .isFalse (by simp [h])
  | .error _, .ok _ => .isFalse (by simp)
  | .ok _, .error _ => .isFalse (by simp)
  | .ok a, .ok b =>
    if h : a = b then .isTrue (by rw [h]) else .isFalse (by simp [h])

/-- Python str.isspace(), the default strip set of str.strip():
tab through CR, the C0 separators FS through US, space, NEL, NBSP,
Ogham space mark, the en-quad through hair-space block, line and
paragraph separators, narrow no-break space, medium mathematical
space, and ideographic space. -/
def pyIsSpace (c : Char) : Bool :=
  (decide (0x9 ≤ c.toNat) && decide (c.toNat ≤ 0xd)) ||
  (decide (0x1c ≤ c.toNat) && decide (c.toNat ≤ 0x1f)) ||
  decide (c.toNat = 0x20) || decide (c.toNat = 0x85) ||
  decide (c.toNat = 0xa0) || decide (c.toNat = 0x1680) ||
  (decide (0x2000 ≤ c.toNat) && decide (c.toNat ≤ 0x200a)) ||
  decide (c.toNat = 0x2028) || decide (c.toNat = 0x2029) ||
  decide (c.toNat = 0x202f) || decide (c.toNat = 0x205f) ||
  decide (c.toNat = 0x3000)

/-- Python str.strip(). -/
def pyStrip (s : List Char) : List Char :=
  ((s.dropWhile pyIsSpace).reverse.dropWhile pyIsSpace).reverse

/-- Everything before the first occurrence of sep, the whole string
when sep does not occur: Python s.split(sep)[0]. -/
def splitBeforeFirst (sep : List Char) : List Char → List Char
  | [] => []
  | c :: rest =>
    if sep.isPrefixOf (c :: rest) then [] else c :: splitBeforeFirst sep rest

/-- Python s.split(ch, 1) when ch occurs: (before, after). -/
def splitAtFirstChar (ch : Char) (s : List Char) : List Char × List Char :=
  (s.takeWhile (· ≠ ch), (s.dropWhile (· ≠ ch)).drop 1)

/-- Python s.rsplit(ch, 1) second component (after the last ch). -/
def afterLastColon (s : List Char) : List Char :=
  ((s.reverse).takeWhile (fun c => !(c == ':'))).reverse

/-- Python s.rsplit(ch, 1) first component (before the last ch). -/
def beforeLastColon (s : List Char) : List Char :=
  (((s.reverse).dropWhile (fun c => !(c == ':'))).drop 1).reverse

/-- Python s.isdigit() over ASCII digits. -/
def pyIsDigitStr (s : List Char) : Bool :=
  !s.isEmpty && s.all Char.isDigit

/-- The optional (?::digits+)? followed by (?:/|$) tail shared by the
LOCALHOST_PATTERN and IP_PATTERN regexes of configs.py. -/
def matchPortThenSlashEnd : List Char → Bool
  | [] => true
  | '/' :: _ => true
  | ':' :: rest =>
    let ds := rest.takeWhile Char.isDigit
    !ds.isEmpty &&
      (match rest.drop ds.length with
       | [] => true
       | '/' :: _ => true
       | _ => false)
  | _ => false

/-- configs.py line 30, LOCALHOST_PATTERN.match(url):
localhost(?::digits)?(?:/|$) at the start, case-insensitive. -/
def matchLocalhost (s : List Char) : Bool :=
  let low := s.map Char.toLower
  "localhost".toList.isPrefixOf low && matchPortThenSlashEnd (low.drop 9)

/-- One (?:digits{1,3}.) group of IP_PATTERN: 1-3 digits then a
dot, returning the remainder. -/
def matchDigits13Dot (s : List Char) : Option (List Char) :=
  let ds := s.takeWhile Char.isDigit
  if 1 ≤ ds.length ∧ ds.length ≤ 3 then
    match s.drop ds.length with
    | '.' :: rest => some rest
    | _ => none
  else none

/-- configs.py line 31, IP_PATTERN.match(url): dotted quad then the
optional port then slash-or-end, at the start. -/
def matchIP (s : List Char) : Bool :=
  match matchDigits13Dot s with
  | none => false
  | some s1 =>
    match matchDigits13Dot s1 with
    | none => false
    | some s2 =>
      match matchDigits13Dot s2 with
      | none => false
      | some s3 =>
        let ds := s3.takeWhile Char.isDigit
        decide (1 ≤ ds.length) && decide (ds.length ≤ 3) &&
          matchPortThenSlashEnd (s3.drop ds.length)

/-- Result of urllib.parse.urlparse. -/
structure ParseResult where
  scheme : List Char
  netloc : List Char
  path : List Char
  params : List Char
  query : List Char
  fragment : List Char
deriving DecidableEq

/-- scheme_chars of urllib.parse: letters, digits, and +-. -/
def schemeChar (c : Char) : Bool :=
  c.isAlphanum || c == '+' || c == '-' || c == '.'

/-- The netloc delimiter test of _splitnetloc: the netloc runs to
the first of /, ?, #. -/
def nlStop (c : Char) : Bool := !(c == '/') && !(c == '?') && !(c == '#')

/-- _splitnetloc(url, 2) applied to the text after the double
slash. -/
def splitNetloc (s : List Char) : List Char × List Char :=
  let nl := s.takeWhile nlStop
  (nl, s.drop nl.length)

/-- The fragment and query splits at the end of urlsplit. -/
def finishSplit (scheme netloc url : List Char) :
    List Char × List Char × List Char × List Char × List Char :=
  let fr := if url.any (· == '#') then splitAtFirstChar '#' url else (url, [])
  let qu := if fr.1.any (· == '?') then splitAtFirstChar '?' fr.1 else (fr.1, [])
  (scheme, netloc, qu.1, qu.2, fr.2)

/-- The WHATWG lstrip of C0 controls and space, then removal of tab,
CR, LF, at the top of urlsplit. -/
def preprocessUrl (url0 : List Char) : List Char :=
  (url0.dropWhile (fun c => decide (c.toNat ≤ 32))).filter
    (fun c => !(c == '\t') && !(c == '\x0d') && !(c == '\n'))

/-- Scheme detection of urlsplit: a colon at a positive position,
an ASCII letter first, every scheme character before the colon;
the scheme is lowercased and removed. -/
def detectScheme (u : List Char) : List Char × List Char :=
  let pre := u.takeWhile (fun c => !(c == ':'))
  let hasScheme := decide (pre.length < u.length) && decide (0 < pre.length) &&
    (match u.head? with | some c => c.isAlpha | none => false) &&
    pre.all schemeChar
  if hasScheme then (pre.map Char.toLower, u.drop (pre.length + 1)) else ([], u)

/-- urllib.parse.urlsplit: preprocessing, scheme detection, netloc
after a double slash with the bracket-balance check, then fragment
and query splits. Returns (scheme, netloc, path, query, fragment). -/
def pyUrlsplit (url0 : List Char) :
    Except String (List Char × List Char × List Char × List Char × List Char) :=
  let sr := detectScheme (preprocessUrl url0)
  if "//".toList.isPrefixOf sr.2 then
    let nlr := splitNetloc (sr.2.drop 2)
    if (nlr.1.any (· == '[') && !(nlr.1.any (· == ']'))) ||
       (nlr.1.any (· == ']') && !(nlr.1.any (· == '['))) then
      .error "Invalid IPv6 URL"
    else
      .ok (finishSplit sr.1 nlr.1 nlr.2)
  else .ok (finishSplit sr.1 [] sr.2)

/-- uses_params of urllib.parse. -/
def uses_params : List (List Char) :=
  ["", "ftp", "hdl", "prospero", "http", "imap", "https", "shttp",
   "rtsp", "rtspu", "sip", "sips", "mms", "sftp", "tel"].map String.toList

/-- _splitparams: the params are split from the last path segment at
its first semicolon; with no slash, from the whole path. -/
def pySplitparams (url : List Char) : List Char × List Char :=
  if url.any (· == '/') then
    let afterLast := (url.reverse.takeWhile (fun c => !(c == '/'))).reverse
    if afterLast.any (· == ';') then
      let pr := splitAtFirstChar ';' afterLast
      (url.take (url.length - afterLast.length) ++ pr.1, pr.2)
    else (url, [])
  else
    if url.any (· == ';') then splitAtFirstChar ';' url else (url, [])

/-- urllib.parse.urlparse: urlsplit plus the params split for schemes
in uses_params. -/
def pyUrlparse (url0 : List Char) : Except String ParseResult :=
  match pyUrlsplit url0 with
  | .error e => .error e
  | .ok (scheme, netloc, url, query, fragment) =>
    let pp :=
      if uses_params.contains scheme && url.any (· == ';') then pySplitparams url
      else (url, [])
    .ok ⟨scheme, netloc, pp.1, pp.2, query, fragment⟩

/-- The leading-slash fix of urlunsplit: if url and url[:1] != a
slash, a slash is prepended. -/
def addLeadingSlash (url : List Char) : List Char :=
  match url with
  | [] => []
  | c :: rest => if c ≠ '/' then '/' :: c :: rest else c :: rest

/-- if netloc or (url and url[:2] == doubleslash):
url = doubleslash + (netloc or empty) + url-with-leading-slash. -/
def urlAddNetloc (netloc url : List Char) : List Char :=
  if !netloc.isEmpty || "//".toList.isPrefixOf url then
    "//".toList ++ netloc ++ addLeadingSlash url
  else url

/-- if scheme: url = scheme + colon + url. -/
def urlAddScheme (scheme url : List Char) : List Char :=
  if !scheme.isEmpty then scheme ++ ':' :: url else url

/-- if query: url = url + question mark + query. -/
def urlAddQuery (url query : List Char) : List Char :=
  if !query.isEmpty then url ++ '?' :: query else url

/-- if fragment: url = url + hash + fragment. -/
def urlAddFragment (url fragment : List Char) : List Char :=
  if !fragment.isEmpty then url ++ '#' :: fragment else url

/-- urllib.parse.urlunsplit. -/
def pyUrlunsplit (scheme netloc url query fragment : List Char) : List Char :=
  urlAddFragment (urlAddQuery (urlAddScheme scheme (urlAddNetloc netloc url)) query)
    fragment

/-- urllib.parse.urlunparse: rejoin params into the path, then
urlunsplit. -/
def pyUrlunparse (r : ParseResult) : List Char :=
  let url := if !r.params.isEmpty then r.path ++ ';' :: r.params else r.path
  pyUrlunsplit r.scheme r.netloc url r.query r.fragment

/-- configs.py lines 110-114: remove the default port 443 for https
and 80 for http from the lowercased netloc. -/
def stripDefaultPort (scheme netloc : List Char) : List Char :=
  if netloc.any (· == ':') then
    let host := beforeLastColon netloc
    let port := afterLastColon netloc
    if (decide (scheme = "https".toList) && decide (port = "443".toList)) ||
       (decide (scheme = "http".toList) && decide (port = "80".toList))
    then host else netloc
  else netloc

/-- configs.py lines 117-119: drop a bare root path. -/
def dropRootPath (p : List Char) : List Char := if p = ['/'] then [] else p

/-- configs.py lines 100-133: parse the prepared URL, lowercase the
scheme and netloc, strip the default port, drop a bare root path,
rebuild without the fragment, and report whether the result differs
from the original (unstripped) input. -/
def parseAndBuild (url original : List Char) : Except String (List Char × Bool) :=
  match pyUrlparse url with
  | .error _ => .error "Invalid URL format"
  | .ok pr =>
    let scheme := pr.scheme.map Char.toLower
    let netloc := stripDefaultPort scheme (pr.netloc.map Char.toLower)
    let path := dropRootPath pr.path
    let normalized := pyUrlunparse ⟨scheme, netloc, path, pr.params, pr.query, []⟩
    .ok (normalized, decide (normalized ≠ original))

/-- configs.py lines 64-69: strip, then make a protocol-relative URL
absolute with the https scheme. -/
def normUrl2 (u : List Char) : List Char :=
  if "//".toList.isPrefixOf (pyStrip u) then "https:".toList ++ pyStrip u
  else pyStrip u

/-- configs.py lines 34-133, normalize_url. -/
def normalize_url (url0 : List Char) : Except String (List Char × Bool) :=
  if url0.isEmpty || (pyStrip url0).isEmpty then .error "URL cannot be empty"
  else
    let url2 := normUrl2 url0
    if hasSub "://".toList url2 then
      let scheme := (splitBeforeFirst "://".toList url2).map Char.toLower
      if !(decide (scheme = "http".toList) || decide (scheme = "https".toList)) then
        .error "Invalid URL scheme"
      else parseAndBuild url2 url0
    else
      if matchLocalhost url2 || matchIP url2 then
        parseAndBuild ("http://".toList ++ url2) url0
      else
        let seg := url2.takeWhile (fun c => !(c == '/'))
        if seg.any (· == ':') &&
           !(pyIsDigitStr (((seg.dropWhile (fun c => !(c == ':'))).drop 1).takeWhile
              (fun c => !(c == ':')))) then
          .error "Invalid URL format"
        else parseAndBuild ("https://".toList ++ url2) url0

/- Character-level facts about Char.toLower used by the URL proofs. -/

theorem char_eq_of_toNat {c x : Char} (h : c.toNat = x.toNat) : c = x :=
  Char.eq_of_val_eq (UInt32.toNat.inj h)

theorem charToNat_ofNat (n : Nat) (h : n.isValidChar) :
    (Char.ofNat n).toNat = n := by
  rw [Char.ofNat, dif_pos h]
  rfl

theorem toLower_spec (c : Char) :
    (¬(65 ≤ c.toNat ∧ c.toNat ≤ 90) ∧ c.toLower = c) ∨
    (65 ≤ c.toNat ∧ c.toNat ≤ 90 ∧ (c.toLower).toNat = c.toNat + 32) := by
  rw [Char.toLower]
  by_cases h : c.toNat ≥ 65 ∧ c.toNat ≤ 90
  · right
    rw [if_pos h]
    exact ⟨h.1, h.2, charToNat_ofNat _ (Or.inl (by omega))⟩
  · left
    rw [if_neg h]
    exact ⟨h, rfl⟩

/-- For a target character outside the lowercase-letter range,
toLower hitting it forces equality. -/
theorem toLower_eq_char {c x : Char} (hx : ¬(97 ≤ x.toNat ∧ x.toNat ≤ 122))
    (h : c.toLower = x) : c = x := by
  rcases toLower_spec c with ⟨_, h2⟩ | ⟨h1, _, h3⟩
  · rw [← h2, h]
  · exfalso
    rw [h] at h3
    exact hx ⟨by omega, by omega⟩

/- List helper lemmas. -/

theorem twAppend {p : Char → Bool} (xs ys : List Char)
    (h : ∀ x ∈ xs, p x = true) :
    (xs ++ ys).takeWhile p = xs ++ ys.takeWhile p := by
  induction xs with
  | nil => simp
  | cons c rest ih =>
    simp only [List.cons_append, List.takeWhile_cons, h c (by simp)]
    rw [ih (fun x hx => h x (by simp [hx]))]
    simp

theorem dwAppend {p : Char → Bool} (xs ys : List Char)
    (h : ∀ x ∈ xs, p x = true) :
    (xs ++ ys).dropWhile p = ys.dropWhile p := by
  induction xs with
  | nil => simp
  | cons c rest ih =>
    simp only [List.cons_append, List.dropWhile_cons, h c (by simp)]
    simpa using ih (fun x hx => h x (by simp [hx]))

/- Fragment-freedom: a successful normalize_url output contains no
hash character, since the fragment is dropped and no component can
contain one. -/

theorem no_hash_map_toLower {l : List Char} (h : '#' ∉ l) :
    '#' ∉ l.map Char.toLower := by
  intro hc
  obtain ⟨c, hcl, hceq⟩ := List.mem_map.mp hc
  have : c = '#' := toLower_eq_char (by decide) hceq
  exact h (this ▸ hcl)

theorem beforeLastColon_subset (s : List Char) :
    ∀ a ∈ beforeLastColon s, a ∈ s := by
  intro a ha
  rw [beforeLastColon, List.mem_reverse] at ha
  exact List.mem_reverse.mp (List.dropWhile_subset _ (List.drop_subset _ _ ha))

theorem splitAtFirstChar_subset (ch : Char) (s : List Char) :
    (∀ a ∈ (splitAtFirstChar ch s).1, a ∈ s) ∧
    (∀ a ∈ (splitAtFirstChar ch s).2, a ∈ s) := by
  constructor
  · intro a ha
    exact List.takeWhile_subset _ ha
  · intro a ha
    exact List.dropWhile_subset _ (List.drop_subset _ _ ha)

theorem pySplitparams_subset (url : List Char) :
    (∀ a ∈ (pySplitparams url).1, a ∈ url) ∧
    (∀ a ∈ (pySplitparams url).2, a ∈ url) := by
  have hAfter : ∀ a ∈ (url.reverse.takeWhile (fun c => !(c == '/'))).reverse,
      a ∈ url := by
    intro a ha
    rw [List.mem_reverse] at ha
    exact List.mem_reverse.mp (List.takeWhile_subset _ ha)
  rw [pySplitparams]
  by_cases h1 : url.any (· == '/') = true
  · rw [if_pos h1]
    by_cases h2 : ((url.reverse.takeWhile (fun c => !(c == '/'))).reverse.any
        (· == ';')) = true
    · rw [if_pos h2]
      constructor
      · intro a ha
        simp only [List.mem_append] at ha
        rcases ha with ha | ha
        · exact List.take_subset _ _ ha
        · exact hAfter a ((splitAtFirstChar_subset ';' _).1 a ha)
      · intro a ha
        exact hAfter a ((splitAtFirstChar_subset ';' _).2 a ha)
    · rw [if_neg h2]
      exact ⟨fun a ha => ha, fun a ha => by simp at ha⟩
  · rw [if_neg h1]
    by_cases h2 : url.any (· == ';') = true
    · rw [if_pos h2]
      exact ⟨(splitAtFirstChar_subset ';' url).1, (splitAtFirstChar_subset ';' url).2⟩
    · rw [if_neg h2]
      exact ⟨fun a ha => ha, fun a ha => by simp at ha⟩

theorem finishSplit_parts (scheme netloc url : List Char) :
    ∃ pth qry frg, finishSplit scheme netloc url = (scheme, netloc, pth, qry, frg) ∧
      '#' ∉ pth ∧ '#' ∉ qry := by
  rw [finishSplit]
  by_cases h1 : url.any (· == '#') = true
  · rw [if_pos h1]
    have hfr : '#' ∉ (splitAtFirstChar '#' url).1 := by
      intro hc
      have := List.mem_takeWhile_imp hc
      simp at this
    by_cases h2 : ((splitAtFirstChar '#' url).1.any (· == '?')) = true
    · rw [if_pos h2]
      refine ⟨_, _, _, rfl, ?_, ?_⟩
      · intro hc
        exact hfr (List.takeWhile_subset _ hc)
      · intro hc
        exact hfr (List.dropWhile_subset _ (List.drop_subset _ _ hc))
    · rw [if_neg h2]
      exact ⟨_, _, _, rfl, hfr, by simp⟩
  · rw [if_neg h1]
    have hfr : '#' ∉ url := by
      intro hc
      exact h1 (List.any_eq_true.mpr ⟨'#', hc, by simp⟩)
    by_cases h2 : (url.any (· == '?')) = true
    · rw [if_pos h2]
      refine ⟨_, _, _, rfl, ?_, ?_⟩
      · intro hc
        exact hfr (List.takeWhile_subset _ hc)
      · intro hc
        exact hfr (List.dropWhile_subset _ (List.drop_subset _ _ hc))
    · rw [if_neg h2]
      exact ⟨_, _, _, rfl, hfr, by simp⟩

theorem detectScheme_no_hash (u : List Char) : '#' ∉ (detectScheme u).1 := by
  rw [detectScheme]
  by_cases h : (decide ((u.takeWhile (fun c => !(c == ':'))).length < u.length) &&
      decide (0 < (u.takeWhile (fun c => !(c == ':'))).length) &&
      (match u.head? with | some c => c.isAlpha | none => false) &&
      (u.takeWhile (fun c => !(c == ':'))).all schemeChar) = true
  · rw [if_pos h]
    intro hc
    obtain ⟨c, hcl, hceq⟩ := List.mem_map.mp hc
    have hcs : c = '#' := toLower_eq_char (by decide) hceq
    have hall : (u.takeWhile (fun c => !(c == ':'))).all schemeChar = true := by
      have := (Bool.and_eq_true _ _).mp h
      exact this.2
    have := (List.all_eq_true.mp hall) c hcl
    rw [hcs] at this
    simp [schemeChar] at this
  · rw [if_neg h]
    simp

theorem splitNetloc_no_hash (s : List Char) : '#' ∉ (splitNetloc s).1 := by
  intro hc
  have := List.mem_takeWhile_imp hc
  simp [nlStop] at this

theorem pyUrlsplit_no_hash (url0 s nl p q f : List Char)
    (h : pyUrlsplit url0 = .ok (s, nl, p, q, f)) :
    '#' ∉ s ∧ '#' ∉ nl ∧ '#' ∉ p ∧ '#' ∉ q := by
  rw [pyUrlsplit] at h
  by_cases hpre : ("//".toList.isPrefixOf (detectScheme (preprocessUrl url0)).2) = true
  · rw [if_pos hpre] at h
    by_cases hbr : (((splitNetloc ((detectScheme (preprocessUrl url0)).2.drop 2)).1.any
        (· == '[') && !((splitNetloc ((detectScheme (preprocessUrl url0)).2.drop 2)).1.any
        (· == ']'))) ||
       ((splitNetloc ((detectScheme (preprocessUrl url0)).2.drop 2)).1.any
        (· == ']') && !((splitNetloc ((detectScheme (preprocessUrl url0)).2.drop 2)).1.any
        (· == '[')))) = true
    · rw [if_pos hbr] at h
      cases h
    · rw [if_neg hbr] at h
      obtain ⟨pth, qry, frg, heq, hp, hq⟩ := finishSplit_parts
        (detectScheme (preprocessUrl url0)).1
        (splitNetloc ((detectScheme (preprocessUrl url0)).2.drop 2)).1
        (splitNetloc ((detectScheme (preprocessUrl url0)).2.drop 2)).2
      rw [heq] at h
      injection h with h
      injection h with h1 h
      injection h with h2 h
      injection h with h3 h
      injection h with h4 h5
      subst h1; subst h2; subst h3; subst h4
      exact ⟨detectScheme_no_hash _, splitNetloc_no_hash _, hp, hq⟩
  · rw [if_neg hpre] at h
    obtain ⟨pth, qry, frg, heq, hp, hq⟩ := finishSplit_parts
      (detectScheme (preprocessUrl url0)).1 []
      (detectScheme (preprocessUrl url0)).2
    rw [heq] at h
    injection h with h
    injection h with h1 h
    injection h with h2 h
    injection h with h3 h
    injection h with h4 h5
    subst h1; subst h2; subst h3; subst h4
    exact ⟨detectScheme_no_hash _, by simp, hp, hq⟩

theorem pyUrlparse_no_hash (url0 : List Char) (pr : ParseResult)
    (h : pyUrlparse url0 = .ok pr) :
    '#' ∉ pr.scheme ∧ '#' ∉ pr.netloc ∧ '#' ∉ pr.path ∧
    '#' ∉ pr.params ∧ '#' ∉ pr.query := by
  rw [pyUrlparse] at h
  cases hsplit : pyUrlsplit url0 with
  | error e => rw [hsplit] at h; cases h
  | ok five =>
    obtain ⟨s, nl, p, q, f⟩ := five
    rw [hsplit] at h
    obtain ⟨h1, h2, h3, h4⟩ := pyUrlsplit_no_hash url0 s nl p q f hsplit
    simp only [Except.ok.injEq] at h
    subst h
    by_cases hcond : (uses_params.contains s && p.any (· == ';')) = true
    · simp only [hcond, if_pos rfl]
      refine ⟨h1, h2, ?_, ?_, h4⟩
      · intro hc
        exact h3 ((pySplitparams_subset p).1 _ hc)
      · intro hc
        exact h3 ((pySplitparams_subset p).2 _ hc)
    · simp only [Bool.not_eq_true] at hcond
      simp only [hcond]
      exact ⟨h1, h2, h3, by simp, h4⟩

theorem addLeadingSlash_no_hash {url : List Char} (h : '#' ∉ url) :
    '#' ∉ addLeadingSlash url := by
  match url, h with
  | [], h => simp [addLeadingSlash]
  | c :: rest, h =>
    rw [addLeadingSlash]
    split
    · intro hc
      rcases List.mem_cons.mp hc with hc | hc
      · cases hc
      · exact h hc
    · exact h

theorem urlAddNetloc_no_hash {netloc url : List Char} (h2 : '#' ∉ netloc)
    (hu : '#' ∉ url) : '#' ∉ urlAddNetloc netloc url := by
  rw [urlAddNetloc]
  split
  · intro hc
    rcases List.mem_append.mp hc with hc | hc
    · rcases List.mem_append.mp hc with hc | hc
      · simp at hc
      · exact h2 hc
    · exact addLeadingSlash_no_hash hu hc
  · exact hu

theorem urlAddScheme_no_hash {scheme url : List Char} (h1 : '#' ∉ scheme)
    (hu : '#' ∉ url) : '#' ∉ urlAddScheme scheme url := by
  rw [urlAddScheme]
  split
  · intro hc
    rcases List.mem_append.mp hc with hc | hc
    · exact h1 hc
    · rcases List.mem_cons.mp hc with hc | hc
      · cases hc
      · exact hu hc
  · exact hu

theorem urlAddQuery_no_hash {url query : List Char} (hu : '#' ∉ url)
    (h4 : '#' ∉ query) : '#' ∉ urlAddQuery url query := by
  rw [urlAddQuery]
  split
  · intro hc
    rcases List.mem_append.mp hc with hc | hc
    · exact hu hc
    · rcases List.mem_cons.mp hc with hc | hc
      · cases hc
      · exact h4 hc
  · exact hu

theorem pyUrlunparse_no_hash (r : ParseResult) (h1 : '#' ∉ r.scheme)
    (h2 : '#' ∉ r.netloc) (h3 : '#' ∉ r.path) (h3b : '#' ∉ r.params)
    (h4 : '#' ∉ r.query) (h5 : r.fragment = []) :
    '#' ∉ pyUrlunparse r := by
  have hurl : '#' ∉ (if !r.params.isEmpty then r.path ++ ';' :: r.params else r.path) := by
    split
    · intro hc
      rcases List.mem_append.mp hc with hc | hc
      · exact h3 hc
      · rcases List.mem_cons.mp hc with hc | hc
        · cases hc
        · exact h3b hc
    · exact h3
  rw [pyUrlunparse, pyUrlunsplit, h5, urlAddFragment]
  simp only [List.isEmpty_nil, Bool.not_true, if_neg (by simp : ¬ (false : Bool) = true)]
  exact urlAddQuery_no_hash (urlAddScheme_no_hash h1 (urlAddNetloc_no_hash h2 hurl)) h4

theorem stripDefaultPort_no_hash {scheme netloc : List Char} (h : '#' ∉ netloc) :
    '#' ∉ stripDefaultPort scheme netloc := by
  rw [stripDefaultPort]
  split
  · dsimp only
    split
    · intro hc
      exact h (beforeLastColon_subset _ _ hc)
    · exact h
  · exact h

theorem dropRootPath_no_hash {p : List Char} (h : '#' ∉ p) :
    '#' ∉ dropRootPath p := by
  rw [dropRootPath]
  split
  · simp
  · exact h

theorem parseAndBuild_spec (url orig n : List Char) (m : Bool)
    (h : parseAndBuild url orig = .ok (n, m)) :
    ∃ pr : ParseResult, pyUrlparse url = .ok pr ∧
      n = pyUrlunparse ⟨pr.scheme.map Char.toLower,
        stripDefaultPort (pr.scheme.map Char.toLower) (pr.netloc.map Char.toLower),
        dropRootPath pr.path, pr.params, pr.query, []⟩ ∧
      m = decide (n ≠ orig) ∧ '#' ∉ n := by
  rw [parseAndBuild] at h
  cases hp : pyUrlparse url with
  | error e => rw [hp] at h; cases h
  | ok pr =>
    rw [hp] at h
    simp only [Except.ok.injEq, Prod.mk.injEq] at h
    obtain ⟨hn, hm⟩ := h
    subst hn
    obtain ⟨g1, g2, g3, g4, g5⟩ := pyUrlparse_no_hash url pr hp
    exact ⟨pr, rfl, rfl, hm.symm,
      pyUrlunparse_no_hash _ (no_hash_map_toLower g1)
        (stripDefaultPort_no_hash (no_hash_map_toLower g2))
        (dropRootPath_no_hash g3) g4 g5 rfl⟩

/-- build_crawl_request lines 487-491: the single url field, present
only when the argument is truthy, and normalized. -/
def buildUrlField : Option (List Char) → Except String (Option (List Char))
  | none => .ok none
  | some u =>
    if u.isEmpty then .ok none
    else (normalize_url u).map (fun r => some r.1)

/-- build_crawl_request lines 494-501: the urls list field, present
only when the argument is truthy, each element normalized in order. -/
def buildUrlsField : Option (List (List Char)) →
    Except String (Option (List (List Char)))
  | none => .ok none
  | some us =>
    if us.isEmpty then .ok none
    else (us.mapM (fun u => (normalize_url u).map (·.1))).map some

theorem mapM_normalize_spec :
    ∀ us ns, us.mapM (fun u => (normalize_url u).map (·.1)) = .ok ns →
    List.Forall₂ (fun u nn => ∃ m, normalize_url u = .ok (nn, m)) us ns := by
  intro us
  induction us with
  | nil =>
    intro ns h
    simp only [List.mapM_nil] at h
    cases h
    exact List.Forall₂.nil
  | cons u rest ih =>
    intro ns h
    rw [List.mapM_cons] at h
    cases hu : normalize_url u with
    | error e =>
      rw [hu] at h
      simp [Except.map, Except.bind, Bind.bind] at h
    | ok r =>
      rw [hu] at h
      cases hrest : rest.mapM (fun u => (normalize_url u).map (·.1)) with
      | error e =>
        rw [hrest] at h
        simp [Except.map, Except.bind, Bind.bind, Except.pure, Pure.pure] at h
      | ok ns1 =>
        rw [hrest] at h
        simp only [Except.map, Except.bind, Bind.bind, Except.pure, Pure.pure,
          Except.ok.injEq] at h
        subst h
        exact List.Forall₂.cons ⟨r.2, by rw [hu]⟩ (ih ns1 hrest)

/-- Claim C8: build_crawl_request canonicalizes every URL it places
into the body through normalize_url (the single url and every element
of urls, in order); normalize_url raises ValueError on empty or
whitespace-only input; a protocol-relative URL gets the https scheme;
a URL with a scheme separator whose scheme is not http or https
raises ValueError; a missing scheme is filled with http:// for
localhost and dotted-quad addresses and https:// otherwise, except
that a non-numeric port-like colon raises ValueError; and every
successful result is rebuilt from the parsed URL with lowercased
scheme and host, default port 443 (https) or 80 (http) removed, a
bare root path dropped, and the fragment dropped (no hash character
remains). -/
theorem c8_url_normalization :
    (∀ u n m, normalize_url u = .ok (n, m) →
      buildUrlField (some u) = .ok (some n)) ∧
    (∀ us ns, buildUrlsField (some us) = .ok (some ns) →
      List.Forall₂ (fun u nn => ∃ m, normalize_url u = .ok (nn, m)) us ns) ∧
    (∀ u, (u.isEmpty || (pyStrip u).isEmpty) = true →
      normalize_url u = .error "URL cannot be empty") ∧
    (∀ u, ("//".toList.isPrefixOf (pyStrip u)) = true →
      normUrl2 u = "https:".toList ++ pyStrip u) ∧
    (∀ u, (u.isEmpty || (pyStrip u).isEmpty) = false →
      hasSub "://".toList (normUrl2 u) = true →
      (!(decide ((splitBeforeFirst "://".toList (normUrl2 u)).map Char.toLower =
          "http".toList) ||
        decide ((splitBeforeFirst "://".toList (normUrl2 u)).map Char.toLower =
          "https".toList))) = true →
      normalize_url u = .error "Invalid URL scheme") ∧
    (∀ u, (u.isEmpty || (pyStrip u).isEmpty) = false →
      hasSub "://".toList (normUrl2 u) = false →
      (matchLocalhost (normUrl2 u) || matchIP (normUrl2 u)) = true →
      normalize_url u = parseAndBuild ("http://".toList ++ normUrl2 u) u) ∧
    (∀ u, (u.isEmpty || (pyStrip u).isEmpty) = false →
      hasSub "://".toList (normUrl2 u) = false →
      (matchLocalhost (normUrl2 u) || matchIP (normUrl2 u)) = false →
      (((normUrl2 u).takeWhile (fun c => !(c == '/'))).any (· == ':') &&
        !(pyIsDigitStr (((((normUrl2 u).takeWhile (fun c => !(c == '/'))).dropWhile
            (fun c => !(c == ':'))).drop 1).takeWhile (fun c => !(c == ':'))))) = true →
      normalize_url u = .error "Invalid URL format") ∧
    (∀ u, (u.isEmpty || (pyStrip u).isEmpty) = false →
      hasSub "://".toList (normUrl2 u) = false →
      (matchLocalhost (normUrl2 u) || matchIP (normUrl2 u)) = false →
      (((normUrl2 u).takeWhile (fun c => !(c == '/'))).any (· == ':') &&
        !(pyIsDigitStr (((((normUrl2 u).takeWhile (fun c => !(c == '/'))).dropWhile
            (fun c => !(c == ':'))).drop 1).takeWhile (fun c => !(c == ':'))))) = false →
      normalize_url u = parseAndBuild ("https://".toList ++ normUrl2 u) u) ∧
    (∀ u n m, normalize_url u = .ok (n, m) →
      '#' ∉ n ∧
      ∃ url pr, pyUrlparse url = .ok pr ∧
        n = pyUrlunparse ⟨pr.scheme.map Char.toLower,
          stripDefaultPort (pr.scheme.map Char.toLower)
            (pr.netloc.map Char.toLower),
          dropRootPath pr.path, pr.params, pr.query, []⟩ ∧
        m = decide (n ≠ u)) := by
  refine ⟨?_, ?_, ?_, ?_, ?_, ?_, ?_, ?_, ?_⟩
  · intro u n m h
    cases u with
    | nil =>
      rw [normalize_url] at h
      simp at h
    | cons c rest =>
      rw [buildUrlField]
      rw [if_neg (by simp), h]
      rfl
  · intro us ns h
    rw [buildUrlsField] at h
    by_cases hemp : us.isEmpty = true
    · rw [if_pos hemp] at h
      cases h
    · rw [if_neg hemp] at h
      cases hm : us.mapM (fun u => (normalize_url u).map (·.1)) with
      | error e => rw [hm] at h; cases h
      | ok ns1 =>
        rw [hm] at h
        simp only [Except.map, Except.ok.injEq, Option.some.injEq] at h
        subst h
        exact mapM_normalize_spec us ns1 hm
  · intro u hcond
    rw [normalize_url, if_pos hcond]
  · intro u hpre
    rw [normUrl2, if_pos hpre]
  · intro u hcond hsub hbad
    rw [normalize_url, if_neg (by simp [hcond])]
    simp only
    rw [if_pos hsub, if_pos hbad]
  · intro u hcond hsub hmatch
    rw [normalize_url, if_neg (by simp [hcond])]
    simp only
    rw [if_neg (by simp only [Bool.not_eq_true]; exact hsub), if_pos hmatch]
  · intro u hcond hsub hmatch hcolon
    rw [normalize_url, if_neg (by simp [hcond])]
    simp only
    rw [if_neg (by simp only [Bool.not_eq_true]; exact hsub),
      if_neg (by simp only [Bool.not_eq_true]; exact hmatch), if_pos hcolon]
  · intro u hcond hsub hmatch hcolon
    rw [normalize_url, if_neg (by simp [hcond])]
    simp only
    rw [if_neg (by simp only [Bool.not_eq_true]; exact hsub),
      if_neg (by simp only [Bool.not_eq_true]; exact hmatch),
      if_neg (by simp only [Bool.not_eq_true]; exact hcolon)]
  · intro u n m h
    rw [normalize_url] at h
    by_cases hcond : (u.isEmpty || (pyStrip u).isEmpty) = true
    · rw [if_pos hcond] at h
      cases h
    · rw [if_neg hcond] at h
      simp only at h
      by_cases hsub : hasSub "://".toList (normUrl2 u) = true
      · rw [if_pos hsub] at h
        by_cases hbad : (!(decide ((splitBeforeFirst "://".toList
            (normUrl2 u)).map Char.toLower = "http".toList) ||
            decide ((splitBeforeFirst "://".toList (normUrl2 u)).map Char.toLower =
            "https".toList))) = true
        · rw [if_pos hbad] at h
          cases h
        · rw [if_neg hbad] at h
          obtain ⟨pr, hp, hn, hm, hhash⟩ := parseAndBuild_spec _ _ _ _ h
          exact ⟨hhash, normUrl2 u, pr, hp, hn, hm⟩
      · rw [if_neg hsub] at h
        by_cases hmatch : (matchLocalhost (normUrl2 u) || matchIP (normUrl2 u)) = true
        · rw [if_pos hmatch] at h
          obtain ⟨pr, hp, hn, hm, hhash⟩ := parseAndBuild_spec _ _ _ _ h
          exact ⟨hhash, "http://".toList ++ normUrl2 u, pr, hp, hn, hm⟩
        · rw [if_neg hmatch] at h
          by_cases hcolon : (((normUrl2 u).takeWhile (fun c => !(c == '/'))).any
              (· == ':') && !(pyIsDigitStr (((((normUrl2 u).takeWhile
              (fun c => !(c == '/'))).dropWhile (fun c => !(c == ':'))).drop
              1).takeWhile (fun c => !(c == ':'))))) = true
          · rw [if_pos hcolon] at h
            cases h
          · rw [if_neg hcolon] at h
            obtain ⟨pr, hp, hn, hm, hhash⟩ := parseAndBuild_spec _ _ _ _ h
            exact ⟨hhash, "https://".toList ++ normUrl2 u, pr, hp, hn, hm⟩

/-- Witness for c8_url_normalization at concrete URLs. -/
theorem c8_url_normalization_witness :
    buildUrlField (some "www.example.com".toList) =
      .ok (some "https://www.example.com".toList) ∧
    normalize_url "   ".toList = .error "URL cannot be empty" := by
  constructor
  · exact c8_url_normalization.1 "www.example.com".toList
      "https://www.example.com".toList true (by decide)
  · exact c8_url_normalization.2.2.1 "   ".toList (by decide)

/- ===================================================================
   Claim C9: idempotence of normalize_url.
   =================================================================== -/

/-- Claim C9, counterexample: normalize_url is not idempotent: the
input https:// (scheme with empty host) succeeds and returns the
string https: as its normalized URL, and applying normalize_url to
that output raises ValueError instead of returning it unchanged. -/
theorem c9_not_idempotent_counterexample :
    normalize_url "https://".toList = .ok ("https:".toList, true) ∧
    normalize_url "https:".toList = .error "Invalid URL format" := by
  exact ⟨by decide, by decide⟩

/-- Characters allowed in a normal-form host: lowercase letters,
digits, dots, hyphens. -/
def isHostChar (c : Char) : Bool :=
  "abcdefghijklmnopqrstuvwxyz0123456789.-".toList.contains c

/-- Normal form of a host: nonempty, all host characters. -/
def NFnetloc (nl : List Char) : Bool :=
  !nl.isEmpty && nl.all isHostChar

/-- Normal form of the part after the host (path and optional
query): empty or starting with a slash or question mark; the path
part is not a bare slash and holds no semicolon; no hash, tab, CR,
LF or Python whitespace anywhere; any query nonempty. -/
def NFrest (r : List Char) : Bool :=
  (match r with
   | [] => true
   | c :: _ => c == '/' || c == '?') &&
  !(decide (r.takeWhile (· ≠ '?') = ['/'])) &&
  r.all (fun c => !(c == '#') && !(c == '\t') && !(c == '\x0d') && !(c == '\n') &&
    !(pyIsSpace c)) &&
  !((r.takeWhile (· ≠ '?')).any (· == ';')) &&
  (!(r.any (· == '?')) || !(((r.dropWhile (· ≠ '?')).drop 1).isEmpty))

/-- Normal form of a URL: a lowercase http or https scheme, a
double slash, a normal-form host up to the netloc delimiter, and a
normal-form rest. -/
def NFurl (n : List Char) : Bool :=
  if "http://".toList.isPrefixOf n then
    NFnetloc ((n.drop 7).takeWhile nlStop) && NFrest ((n.drop 7).dropWhile nlStop)
  else if "https://".toList.isPrefixOf n then
    NFnetloc ((n.drop 8).takeWhile nlStop) && NFrest ((n.drop 8).dropWhile nlStop)
  else false

theorem isPrefixOf_append_self (l t : List Char) : l.isPrefixOf (l ++ t) = true := by
  induction l with
  | nil => simp
  | cons c rest ih => simp [List.isPrefixOf]

theorem dropWhile_head_false {p : Char → Bool} (l : List Char)
    (h : ∀ c, l.head? = some c → p c = false) : l.dropWhile p = l := by
  cases l with
  | nil => rfl
  | cons c rest => simp [List.dropWhile_cons, h c rfl]

theorem takeWhile_head_false {p : Char → Bool} (l : List Char)
    (h : ∀ c, l.head? = some c → p c = false) : l.takeWhile p = [] := by
  cases l with
  | nil => rfl
  | cons c rest => simp [List.takeWhile_cons, h c rfl]

theorem dropWhile_any (ch : Char) :
    ∀ t : List Char, t.any (· == ch) = true →
    ∃ rest, t.dropWhile (· ≠ ch) = ch :: rest := by
  intro t
  induction t with
  | nil => intro h; simp at h
  | cons c rest ih =>
    intro h
    by_cases hc : c = ch
    · subst hc
      exact ⟨rest, by simp [List.dropWhile_cons]⟩
    · have : rest.any (· == ch) = true := by
        simp only [List.any_cons, Bool.or_eq_true] at h
        rcases h with h | h
        · exact absurd (by simpa using h) hc
        · exact h
      obtain ⟨r2, hr2⟩ := ih this
      exact ⟨r2, by rw [List.dropWhile_cons, if_pos (by simp [hc]), hr2]⟩

theorem split_reassemble (ch : Char) (t : List Char)
    (h : t.any (· == ch) = true) :
    t.takeWhile (· ≠ ch) ++ ch :: (t.dropWhile (· ≠ ch)).drop 1 = t := by
  obtain ⟨rest, hrest⟩ := dropWhile_any ch t h
  conv_rhs => rw [← List.takeWhile_append_dropWhile (p := fun c => decide (c ≠ ch)) (l := t)]
  rw [hrest]
  simp

theorem hostChar_props (c : Char) (h : isHostChar c = true) :
    Char.toLower c = c ∧ pyIsSpace c = false ∧ (c == ':') = false ∧
    nlStop c = true ∧ (c == '\t') = false ∧ (c == '\x0d') = false ∧
    (c == '\n') = false ∧ decide (c.toNat ≤ 32) = false ∧
    (c == '[') = false ∧ (c == ']') = false ∧ (c == '#') = false := by
  have hmem : c ∈ "abcdefghijklmnopqrstuvwxyz0123456789.-".toList := by
    rw [isHostChar] at h
    simpa using h
  fin_cases hmem <;> exact (by decide)

theorem takeWhile_all {p : Char → Bool} (l : List Char)
    (h : ∀ c ∈ l, p c = true) : l.takeWhile p = l := by
  induction l with
  | nil => rfl
  | cons c rest ih =>
    rw [List.takeWhile_cons, if_pos (h c (by simp))]
    rw [ih (fun x hx => h x (by simp [hx]))]

theorem hasSub_append (sep post : List Char) :
    ∀ pre, hasSub sep ((pre ++ sep) ++ post) = true ∨ sep = [] := by
  intro pre
  induction pre with
  | nil =>
    cases hsep : sep with
    | nil => right; rfl
    | cons c cs =>
      left
      rw [List.nil_append, List.cons_append, hasSub]
      have : (c :: cs).isPrefixOf ((c :: cs) ++ post) = true :=
        isPrefixOf_append_self _ _
      rw [show c :: (cs ++ post) = (c :: cs) ++ post from rfl, this]
      simp
  | cons c ct ih =>
    rcases ih with ih | ih
    · left
      rw [List.cons_append, List.cons_append, hasSub]
      rw [ih]
      simp
    · right; exact ih

theorem splitBeforeFirst_colon_sep (sepTail y : List Char)
    (hy : (':' :: sepTail).isPrefixOf y = true) :
    ∀ x, (∀ c ∈ x, (c == ':') = false) →
    splitBeforeFirst (':' :: sepTail) (x ++ y) = x := by
  intro x
  induction x with
  | nil =>
    intro _
    cases y with
    | nil => simp [List.isPrefixOf] at hy
    | cons c ys =>
      rw [List.nil_append, splitBeforeFirst, if_pos hy]
  | cons c ct ih =>
    intro hx
    rw [List.cons_append, splitBeforeFirst]
    have hcc : ((':' :: sepTail).isPrefixOf (c :: (ct ++ y))) = false := by
      have h1 : (c == ':') = false := hx c (by simp)
      simp only [List.isPrefixOf]
      have : (':' == c) = false := by
        simp only [beq_eq_false_iff_ne] at h1 ⊢
        exact fun h => h1 h.symm
      rw [this]
      simp
    rw [if_neg (by simp [hcc])]
    rw [ih (fun x hx2 => hx x (by simp [hx2]))]

theorem NFnetloc_spec (nl : List Char) (h : NFnetloc nl = true) :
    nl ≠ [] ∧ ∀ c ∈ nl, isHostChar c = true := by
  rw [NFnetloc, Bool.and_eq_true] at h
  refine ⟨by simpa using h.1, ?_⟩
  intro c hc
  exact List.all_eq_true.mp h.2 c hc

theorem NFrest_spec (r : List Char) (h : NFrest r = true) :
    (∀ c, r.head? = some c → c = '/' ∨ c = '?') ∧
    r.takeWhile (· ≠ '?') ≠ ['/'] ∧
    (∀ c ∈ r, (c == '#') = false ∧ (c == '\t') = false ∧
      (c == '\x0d') = false ∧ (c == '\n') = false ∧ pyIsSpace c = false) ∧
    (∀ c ∈ r.takeWhile (· ≠ '?'), (c == ';') = false) ∧
    (r.any (· == '?') = true → (r.dropWhile (· ≠ '?')).drop 1 ≠ []) := by
  rw [NFrest.eq_def] at h
  simp only [Bool.and_eq_true] at h
  obtain ⟨⟨⟨⟨h0, h1⟩, h2⟩, h3⟩, h4⟩ := h
  refine ⟨?_, ?_, ?_, ?_, ?_⟩
  · intro c hc
    cases r with
    | nil => cases hc
    | cons c0 rest =>
      cases hc
      simp only [Bool.or_eq_true, beq_iff_eq] at h0
      exact h0
  · simpa using h1
  · intro c hc
    have := List.all_eq_true.mp h2 c hc
    simp only [Bool.and_eq_true] at this
    obtain ⟨⟨⟨⟨g1, g2⟩, g3⟩, g4⟩, g5⟩ := this
    exact ⟨by simpa using g1, by simpa using g2, by simpa using g3,
      by simpa using g4, by simpa using g5⟩
  · intro c hc
    rw [Bool.eq_false_iff]
    intro hcon
    have hany : (r.takeWhile (· ≠ '?')).any (· == ';') = true :=
      List.any_eq_true.mpr ⟨c, hc, hcon⟩
    rw [hany] at h3
    simp at h3
  · intro hq
    rw [hq] at h4
    simp only [Bool.not_true, Bool.false_or, Bool.not_eq_true'] at h4
    simpa using h4

theorem head_mem_of_head? {l : List Char} {c : Char} (h : l.head? = some c) :
    c ∈ l := by
  cases l with
  | nil => cases h
  | cons a t =>
    injection h with h
    subst h
    exact List.mem_cons_self a t

theorem pyStrip_of_no_space (l : List Char)
    (h : ∀ c ∈ l, pyIsSpace c = false) : pyStrip l = l := by
  rw [pyStrip]
  rw [dropWhile_head_false l (fun c hc => h c (head_mem_of_head? hc))]
  rw [dropWhile_head_false l.reverse
    (fun c hc => h c (List.mem_reverse.mp (head_mem_of_head? hc)))]
  exact List.reverse_reverse l

theorem isPrefixOf_exists : ∀ (l1 l2 : List Char), l1.isPrefixOf l2 = true →
    ∃ t, l1 ++ t = l2 := by
  intro l1
  induction l1 with
  | nil => intro l2 _; exact ⟨l2, rfl⟩
  | cons a t ih =>
    intro l2 h
    cases l2 with
    | nil => simp [List.isPrefixOf] at h
    | cons b u =>
      simp only [List.isPrefixOf, Bool.and_eq_true, beq_iff_eq] at h
      obtain ⟨hab, h2⟩ := h
      subst hab
      obtain ⟨u2, hu⟩ := ih u h2
      exact ⟨u2, by rw [List.cons_append, hu]⟩

theorem nf_mem_clean (s nl r : List Char)
    (hs : s = "http".toList ∨ s = "https".toList)
    (hnl : NFnetloc nl = true) (hr : NFrest r = true) :
    ∀ c ∈ s ++ ':' :: '/' :: '/' :: (nl ++ r),
      pyIsSpace c = false ∧
      (!(c == '\t') && !(c == '\x0d') && !(c == '\n')) = true := by
  obtain ⟨hne, hall⟩ := NFnetloc_spec nl hnl
  have hrprops := (NFrest_spec r hr).2.2.1
  have hsprop : ∀ x ∈ s, pyIsSpace x = false ∧
      (!(x == '\t') && !(x == '\x0d') && !(x == '\n')) = true := by
    rcases hs with rfl | rfl <;> decide
  intro c hc
  rw [List.mem_append] at hc
  rcases hc with hc | hc
  · exact hsprop c hc
  · rw [List.mem_cons] at hc
    rcases hc with rfl | hc
    · exact ⟨by decide, by decide⟩
    · rw [List.mem_cons] at hc
      rcases hc with rfl | hc
      · exact ⟨by decide, by decide⟩
      · rw [List.mem_cons] at hc
        rcases hc with rfl | hc
        · exact ⟨by decide, by decide⟩
        · rw [List.mem_append] at hc
          rcases hc with hc | hc
          · obtain ⟨_, hsp, _, _, ht, hcr, hlf, _, _, _, _⟩ :=
              hostChar_props c (hall c hc)
            exact ⟨hsp, by rw [ht, hcr, hlf]; decide⟩
          · obtain ⟨_, ht, hcr, hlf, hsp⟩ := hrprops c hc
            exact ⟨hsp, by rw [ht, hcr, hlf]; decide⟩

theorem nf_preprocess (s nl r : List Char)
    (hs : s = "http".toList ∨ s = "https".toList)
    (hnl : NFnetloc nl = true) (hr : NFrest r = true) :
    preprocessUrl (s ++ ':' :: '/' :: '/' :: (nl ++ r)) =
      s ++ ':' :: '/' :: '/' :: (nl ++ r) := by
  have hhead : (s ++ ':' :: '/' :: '/' :: (nl ++ r)).head? = some 'h' := by
    rcases hs with rfl | rfl <;> rfl
  rw [preprocessUrl]
  rw [dropWhile_head_false _ (fun c hc => by
    rw [hhead] at hc
    injection hc with h
    rw [← h]
    decide)]
  exact List.filter_eq_self.mpr
    (fun a ha => ((nf_mem_clean s nl r hs hnl hr) a ha).2)

theorem nf_detectScheme (s nl r : List Char)
    (hs : s = "http".toList ∨ s = "https".toList) :
    detectScheme (s ++ ':' :: '/' :: '/' :: (nl ++ r)) =
      (s, '/' :: '/' :: (nl ++ r)) := by
  have hcol : ∀ x ∈ s, (!(x == ':')) = true := by
    rcases hs with rfl | rfl <;> decide
  have htw : (s ++ ':' :: '/' :: '/' :: (nl ++ r)).takeWhile
      (fun c => !(c == ':')) = s := by
    rw [twAppend s _ hcol]
    rw [takeWhile_head_false _ (fun c hc => by
      simp only [List.head?_cons, Option.some.injEq] at hc
      rw [← hc]
      decide)]
    exact List.append_nil s
  have hhead : (s ++ ':' :: '/' :: '/' :: (nl ++ r)).head? = some 'h' := by
    rcases hs with rfl | rfl <;> rfl
  have hlen : (decide (s.length <
      (s ++ ':' :: '/' :: '/' :: (nl ++ r)).length)) = true := by
    simp only [decide_eq_true_eq, List.length_append, List.length_cons]
    omega
  have hpos : (decide (0 < s.length)) = true := by
    rcases hs with rfl | rfl <;> decide
  have hall2 : s.all schemeChar = true := by
    rcases hs with rfl | rfl <;> decide
  have hmap : s.map Char.toLower = s := by
    rcases hs with rfl | rfl <;> decide
  rw [detectScheme]
  rw [htw]
  have hcond : (decide (s.length <
        (s ++ ':' :: '/' :: '/' :: (nl ++ r)).length) &&
      decide (0 < s.length) &&
      (match (s ++ ':' :: '/' :: '/' :: (nl ++ r)).head? with
       | some c => c.isAlpha | none => false) &&
      s.all schemeChar) = true := by
    simp only [hhead]
    rw [hlen, hpos, hall2]
    decide
  rw [if_pos hcond]
  rw [hmap]
  have h1 : s ++ ':' :: '/' :: '/' :: (nl ++ r) =
      (s ++ [':']) ++ '/' :: '/' :: (nl ++ r) := by simp
  have h2 : s.length + 1 = (s ++ [':']).length := by simp
  rw [h1, h2, List.drop_left]

theorem nf_splitNetloc (nl r : List Char)
    (hnl : NFnetloc nl = true) (hr : NFrest r = true) :
    splitNetloc (nl ++ r) = (nl, r) := by
  obtain ⟨hne, hall⟩ := NFnetloc_spec nl hnl
  have h0 := (NFrest_spec r hr).1
  have hstop : ∀ c, r.head? = some c → nlStop c = false := by
    intro c hc
    rcases h0 c hc with rfl | rfl <;> decide
  have htw : (nl ++ r).takeWhile nlStop = nl := by
    rw [twAppend nl r (fun x hx => ((hostChar_props x (hall x hx)).2.2.2.1))]
    rw [takeWhile_head_false r hstop]
    exact List.append_nil nl
  rw [splitNetloc]
  rw [htw, List.drop_left]

theorem nf_finishSplit (scheme netloc r : List Char) (hr : NFrest r = true) :
    finishSplit scheme netloc r =
      (scheme, netloc, r.takeWhile (· ≠ '?'),
       (if r.any (· == '?') then (r.dropWhile (· ≠ '?')).drop 1 else []), []) := by
  obtain ⟨h0, h1, h2, h3, h4⟩ := NFrest_spec r hr
  have hnohash : r.any (· == '#') = false := by
    rw [Bool.eq_false_iff]
    intro hcon
    obtain ⟨c, hc, he⟩ := List.any_eq_true.mp hcon
    have hh := (h2 c hc).1
    rw [hh] at he
    exact Bool.false_ne_true he
  rw [finishSplit]
  rw [hnohash]
  rw [if_neg Bool.false_ne_true]
  simp only
  by_cases hq : r.any (· == '?') = true
  · rw [if_pos hq]
    rw [if_pos hq]
    rw [splitAtFirstChar]
  · have hq2 : r.any (· == '?') = false := Bool.eq_false_iff.mpr hq
    rw [hq2]
    rw [if_neg Bool.false_ne_true]
    rw [if_neg Bool.false_ne_true]
    have htwr : r.takeWhile (· ≠ '?') = r := by
      apply takeWhile_all
      intro c hc
      rw [decide_eq_true_eq]
      intro hcon
      have : r.any (· == '?') = true :=
        List.any_eq_true.mpr ⟨c, hc, by rw [hcon]; decide⟩
      exact hq this
    rw [htwr]

theorem nf_urlsplit (s nl r : List Char)
    (hs : s = "http".toList ∨ s = "https".toList)
    (hnl : NFnetloc nl = true) (hr : NFrest r = true) :
    pyUrlsplit (s ++ ':' :: '/' :: '/' :: (nl ++ r)) =
      .ok (s, nl, r.takeWhile (· ≠ '?'),
        (if r.any (· == '?') then (r.dropWhile (· ≠ '?')).drop 1 else []), []) := by
  obtain ⟨hne, hall⟩ := NFnetloc_spec nl hnl
  rw [pyUrlsplit]
  rw [nf_preprocess s nl r hs hnl hr]
  rw [nf_detectScheme s nl r hs]
  simp only
  have hpre : ("//".toList.isPrefixOf ('/' :: '/' :: (nl ++ r))) = true :=
    isPrefixOf_append_self ['/', '/'] (nl ++ r)
  rw [if_pos hpre]
  have hdrop2 : ('/' :: '/' :: (nl ++ r)).drop 2 = nl ++ r := rfl
  rw [hdrop2]
  rw [nf_splitNetloc nl r hnl hr]
  simp only
  have hbl : nl.any (· == '[') = false := by
    rw [Bool.eq_false_iff]
    intro hcon
    obtain ⟨c, hc, he⟩ := List.any_eq_true.mp hcon
    have h9 := (hostChar_props c (hall c hc)).2.2.2.2.2.2.2.2.1
    rw [h9] at he
    exact Bool.false_ne_true he
  have hbr2 : nl.any (· == ']') = false := by
    rw [Bool.eq_false_iff]
    intro hcon
    obtain ⟨c, hc, he⟩ := List.any_eq_true.mp hcon
    have h10 := (hostChar_props c (hall c hc)).2.2.2.2.2.2.2.2.2.1
    rw [h10] at he
    exact Bool.false_ne_true he
  rw [hbl, hbr2]
  rw [if_neg (by decide)]
  rw [nf_finishSplit s nl r hr]

theorem nf_urlparse (s nl r : List Char)
    (hs : s = "http".toList ∨ s = "https".toList)
    (hnl : NFnetloc nl = true) (hr : NFrest r = true) :
    pyUrlparse (s ++ ':' :: '/' :: '/' :: (nl ++ r)) =
      .ok ⟨s, nl, r.takeWhile (· ≠ '?'), [],
        (if r.any (· == '?') then (r.dropWhile (· ≠ '?')).drop 1 else []), []⟩ := by
  rw [pyUrlparse, nf_urlsplit s nl r hs hnl hr]
  simp only
  have hsemi : (r.takeWhile (· ≠ '?')).any (· == ';') = false := by
    rw [Bool.eq_false_iff]
    intro hcon
    obtain ⟨c, hc, he⟩ := List.any_eq_true.mp hcon
    have hh := (NFrest_spec r hr).2.2.2.1 c hc
    rw [hh] at he
    exact Bool.false_ne_true he
  rw [hsemi, Bool.and_false]
  rw [if_neg Bool.false_ne_true]

theorem nf_unparse (s nl r : List Char)
    (hs : s = "http".toList ∨ s = "https".toList)
    (hnl : NFnetloc nl = true) (hr : NFrest r = true) :
    pyUrlunparse ⟨s, nl, r.takeWhile (· ≠ '?'), [],
      (if r.any (· == '?') then (r.dropWhile (· ≠ '?')).drop 1 else []), []⟩ =
      s ++ ':' :: '/' :: '/' :: (nl ++ r) := by
  obtain ⟨hne, hall⟩ := NFnetloc_spec nl hnl
  obtain ⟨h0, h1, h2, h3, h4⟩ := NFrest_spec r hr
  have hals : addLeadingSlash (r.takeWhile (· ≠ '?')) = r.takeWhile (· ≠ '?') := by
    cases r with
    | nil => rfl
    | cons c rest =>
      rcases h0 c rfl with rfl | rfl
      · rw [List.takeWhile_cons, if_pos (by decide)]
        rw [addLeadingSlash]
        rw [if_neg (by decide)]
      · rw [List.takeWhile_cons, if_neg (by decide)]
        rfl
  have hnlem : nl.isEmpty = false := by
    cases nl with
    | nil => exact absurd rfl hne
    | cons a t => rfl
  have hsem : s.isEmpty = false := by rcases hs with rfl | rfl <;> rfl
  have hdd : ("//".toList : List Char) = ['/', '/'] := rfl
  rw [pyUrlunparse]
  simp only [List.isEmpty_nil, Bool.not_true]
  rw [if_neg Bool.false_ne_true]
  rw [pyUrlunsplit]
  rw [urlAddFragment]
  simp only [List.isEmpty_nil, Bool.not_true]
  rw [if_neg Bool.false_ne_true]
  rw [urlAddNetloc]
  rw [hnlem]
  simp only [Bool.not_false, Bool.true_or]
  rw [if_pos (by trivial)]
  rw [hals]
  rw [urlAddScheme]
  rw [hsem]
  simp only [Bool.not_false]
  rw [if_pos (by trivial)]
  by_cases hq : r.any (· == '?') = true
  · rw [if_pos hq]
    rw [urlAddQuery]
    have hdq : ((r.dropWhile (· ≠ '?')).drop 1).isEmpty = false := by
      cases hdqe : (r.dropWhile (· ≠ '?')).drop 1 with
      | nil => exact absurd hdqe (h4 hq)
      | cons a t => rfl
    rw [hdq]
    simp only [Bool.not_false]
    rw [if_pos (by trivial)]
    rw [hdd]
    simp only [List.append_assoc, List.cons_append, List.nil_append]
    rw [split_reassemble '?' r hq]
  · have hq2 : r.any (· == '?') = false := Bool.eq_false_iff.mpr hq
    rw [hq2]
    rw [if_neg Bool.false_ne_true]
    rw [urlAddQuery]
    simp only [List.isEmpty_nil, Bool.not_true]
    rw [if_neg Bool.false_ne_true]
    have htwr : r.takeWhile (· ≠ '?') = r := by
      apply takeWhile_all
      intro c hc
      rw [decide_eq_true_eq]
      intro hcon
      have : r.any (· == '?') = true :=
        List.any_eq_true.mpr ⟨c, hc, by rw [hcon]; decide⟩
      exact hq this
    rw [htwr]
    rw [hdd]
    simp only [List.append_assoc, List.cons_append, List.nil_append]

theorem nf_parseAndBuild (s nl r : List Char)
    (hs : s = "http".toList ∨ s = "https".toList)
    (hnl : NFnetloc nl = true) (hr : NFrest r = true) :
    parseAndBuild (s ++ ':' :: '/' :: '/' :: (nl ++ r))
        (s ++ ':' :: '/' :: '/' :: (nl ++ r)) =
      .ok (s ++ ':' :: '/' :: '/' :: (nl ++ r), false) := by
  obtain ⟨hne, hall⟩ := NFnetloc_spec nl hnl
  have hmap : s.map Char.toLower = s := by rcases hs with rfl | rfl <;> decide
  have hmapnl : nl.map Char.toLower = nl := by
    have hcg : nl.map Char.toLower = nl.map id :=
      List.map_congr_left (fun a ha => (hostChar_props a (hall a ha)).1)
    rw [hcg, List.map_id]
  have hcolnl : nl.any (· == ':') = false := by
    rw [Bool.eq_false_iff]
    intro hcon
    obtain ⟨c, hc, he⟩ := List.any_eq_true.mp hcon
    have hh := (hostChar_props c (hall c hc)).2.2.1
    rw [hh] at he
    exact Bool.false_ne_true he
  have hsdp : stripDefaultPort s nl = nl := by
    rw [stripDefaultPort]
    rw [hcolnl]
    rw [if_neg Bool.false_ne_true]
  have hpath : dropRootPath (r.takeWhile (· ≠ '?')) = r.takeWhile (· ≠ '?') := by
    rw [dropRootPath, if_neg (NFrest_spec r hr).2.1]
  rw [parseAndBuild, nf_urlparse s nl r hs hnl hr]
  simp only [Except.ok.injEq, Prod.mk.injEq]
  rw [hmap, hmapnl, hsdp, hpath, nf_unparse s nl r hs hnl hr]
  exact ⟨rfl, by simp⟩

theorem nf_core (s nl r : List Char)
    (hs : s = "http".toList ∨ s = "https".toList)
    (hnl : NFnetloc nl = true) (hr : NFrest r = true) :
    normalize_url (s ++ ':' :: '/' :: '/' :: (nl ++ r)) =
      .ok (s ++ ':' :: '/' :: '/' :: (nl ++ r), false) := by
  have hstrip : pyStrip (s ++ ':' :: '/' :: '/' :: (nl ++ r)) =
      s ++ ':' :: '/' :: '/' :: (nl ++ r) :=
    pyStrip_of_no_space _ (fun c hc => (nf_mem_clean s nl r hs hnl hr c hc).1)
  have hnonempty : ((s ++ ':' :: '/' :: '/' :: (nl ++ r)).isEmpty ||
      (pyStrip (s ++ ':' :: '/' :: '/' :: (nl ++ r))).isEmpty) = false := by
    rw [hstrip]
    rcases hs with rfl | rfl <;> rfl
  have hnotpre : ("//".toList.isPrefixOf
      (s ++ ':' :: '/' :: '/' :: (nl ++ r))) = false := by
    rcases hs with rfl | rfl <;> simp [List.isPrefixOf]
  have hnu : normUrl2 (s ++ ':' :: '/' :: '/' :: (nl ++ r)) =
      s ++ ':' :: '/' :: '/' :: (nl ++ r) := by
    rw [normUrl2, hstrip]
    rw [if_neg (by rw [hnotpre]; exact Bool.false_ne_true)]
  have hassoc : (s ++ "://".toList) ++ (nl ++ r) =
      s ++ ':' :: '/' :: '/' :: (nl ++ r) := by
    simp [List.append_assoc]
  have hsub : hasSub "://".toList (s ++ ':' :: '/' :: '/' :: (nl ++ r)) = true := by
    have hh := (hasSub_append "://".toList (nl ++ r) s).resolve_right (by decide)
    rw [hassoc] at hh
    exact hh
  have hnocol : ∀ c ∈ s, (c == ':') = false := by
    rcases hs with rfl | rfl <;> decide
  have hsbf : splitBeforeFirst ("://".toList)
      (s ++ ':' :: '/' :: '/' :: (nl ++ r)) = s :=
    splitBeforeFirst_colon_sep "//".toList (':' :: '/' :: '/' :: (nl ++ r))
      (isPrefixOf_append_self [':', '/', '/'] (nl ++ r)) s hnocol
  have hmap : s.map Char.toLower = s := by rcases hs with rfl | rfl <;> decide
  have hok : (!(decide (s = "http".toList) ||
      decide (s = "https".toList))) = false := by
    rcases hs with rfl | rfl <;> decide
  rw [normalize_url, if_neg (by rw [hnonempty]; exact Bool.false_ne_true)]
  simp only
  rw [hnu]
  rw [if_pos hsub]
  rw [hsbf, hmap]
  rw [if_neg (by rw [hok]; exact Bool.false_ne_true)]
  exact nf_parseAndBuild s nl r hs hnl hr

/-- Claim C9, amended: normalize_url is a fixed point on URLs already
in normal form: a lowercase http or https scheme, a double slash, a
nonempty host of lowercase letters, digits, dots and hyphens, and a
rest that is empty or starts with a slash or question mark, whose path
part is not a bare slash and holds no semicolon, with no hash and no
Python whitespace (tab through CR, the C0 separators, space, NEL,
NBSP and the Unicode spaces) anywhere and any query nonempty; every
such URL is returned unchanged with was_modified false. -/
theorem c9_normal_form_fixed (n : List Char) (h : NFurl n = true) :
    normalize_url n = .ok (n, false) := by
  rw [NFurl] at h
  by_cases h7 : ("http://".toList.isPrefixOf n) = true
  · rw [if_pos h7] at h
    rw [Bool.and_eq_true] at h
    obtain ⟨t, ht⟩ := isPrefixOf_exists _ _ h7
    subst ht
    have hd7 : ("http://".toList ++ t).drop 7 = t := rfl
    rw [hd7] at h
    have hsplit := List.takeWhile_append_dropWhile (p := nlStop) (l := t)
    have hcore := nf_core "http".toList (t.takeWhile nlStop)
      (t.dropWhile nlStop) (Or.inl rfl) h.1 h.2
    rw [hsplit] at hcore
    exact hcore
  · rw [if_neg h7] at h
    by_cases h8 : ("https://".toList.isPrefixOf n) = true
    · rw [if_pos h8] at h
      rw [Bool.and_eq_true] at h
      obtain ⟨t, ht⟩ := isPrefixOf_exists _ _ h8
      subst ht
      have hd8 : ("https://".toList ++ t).drop 8 = t := rfl
      rw [hd8] at h
      have hsplit := List.takeWhile_append_dropWhile (p := nlStop) (l := t)
      have hcore := nf_core "https".toList (t.takeWhile nlStop)
        (t.dropWhile nlStop) (Or.inr rfl) h.1 h.2
      rw [hsplit] at hcore
      exact hcore
    · rw [if_neg h8] at h
      cases h

/-- Witness for c9_normal_form_fixed at a concrete normal-form URL
with host, path and query. -/
theorem c9_normal_form_fixed_witness :
    normalize_url "https://example.com/a?b=1".toList =
      .ok ("https://example.com/a?b=1".toList, false) :=
  c9_normal_form_fixed "https://example.com/a?b=1".toList (by decide)
